import Mathlib

/-! API gateway: request proxying, routing and observability.

A shallow embedding of `src/services/api-gateway/index.js` and
`src/services/api-gateway/metrics.js` (namespace `Gateway`), of the edge function
`src/infrastructure/terraform/modules/edge/edge-functions/index.js` (namespace `Edge`) and of
`src/services/order-service/index.js` (namespace `OrderService`).

* JavaScript values that travel through the gateway are `Json` values; `undefined` is
  `Option.none`, and truthiness is `Json.truthy`.
* The Express application is the list of its layers in registration order (`gatewayStack`);
  `dispatch` walks that list the way the Express 4 router does: `app.get` routes match the
  whole path name, `app.use` mounts match a leading part that ends at a segment boundary, both
  without regard to case; `next(err)` skips to the error handlers.
* The middleware taken from libraries is modelled by what it does to a request: `helmet` and
  `morgan` pass every request on; `cors` answers a preflight (`OPTIONS`) by itself with 204;
  the body parsers set `req.body` (to an empty object when they read nothing) or raise an
  error that carries an HTTP status.
* The proxy middleware (http-proxy-middleware 2.x, whose options are `pathRewrite`,
  `onProxyReq`, `onProxyRes`, `onError`) rewrites `req.originalUrl`, runs `onProxyReq` on the
  outbound request, and relays the answer of the backend or calls `onError`.
* The clock, the process environment and the three backends are explicit parameters (`Env`);
  the way the handling of a request ends is an `Exit`, by the events emitted on the response.
* The order service is a function from a store and a request to a response and a store; what
  `uuidv4()` and the clock return during a request is a parameter (`World`).
-/

namespace Gateway

/-! ## JSON values -/

/-- JSON values as `JSON.parse` produces them. Numbers are kept to the integers. -/
inductive Json where
  | null
  | bool (b : Bool)
  | num (n : Int)
  | str (s : String)
  | arr (items : List Json)
  | obj (members : List (String × Json))

/-- JavaScript truthiness of a value (`if (v)`, `v || d`, `!v`). -/
def Json.truthy : Json → Bool
  | .null => false
  | .bool b => b
  | .num n => n != 0
  | .str s => s != ""
  | .arr _ => true
  | .obj _ => true

/-- Truthiness of a possibly `undefined` value. -/
def truthy : Option Json → Bool
  | none => false
  | some v => v.truthy

/-- Lower-case hexadecimal digit. -/
def hexDigit (n : Nat) : Char :=
  "0123456789abcdef".toList.getD n '0'

/-- The escape `JSON.stringify` writes for one character of a string. -/
def quoteChar (c : Char) : List Char :=
  if c.toNat = 34 then [Char.ofNat 92, Char.ofNat 34]
  else if c.toNat = 92 then [Char.ofNat 92, Char.ofNat 92]
  else if c.toNat = 8 then [Char.ofNat 92, 'b']
  else if c.toNat = 12 then [Char.ofNat 92, 'f']
  else if c.toNat = 10 then [Char.ofNat 92, 'n']
  else if c.toNat = 13 then [Char.ofNat 92, 'r']
  else if c.toNat = 9 then [Char.ofNat 92, 't']
  else if c.toNat < 32 then
    [Char.ofNat 92, 'u', '0', '0', hexDigit (c.toNat / 16), hexDigit (c.toNat % 16)]
  else [c]

/-- The quoted form of a string (`QuoteJSONString`). -/
def quoteString (s : String) : String :=
  String.mk (Char.ofNat 34 :: (s.toList.flatMap quoteChar ++ [Char.ofNat 34]))

/-- Decimal form of an integer, as `JSON.stringify` prints it. -/
def showInt : Int → String
  | Int.ofNat n => toString n
  | Int.negSucc n => "-" ++ toString (n + 1)

mutual
/-- The text `JSON.stringify(v)` returns (no indentation). -/
def Json.stringify : Json → String
  | .null => "null"
  | .bool true => "true"
  | .bool false => "false"
  | .num n => showInt n
  | .str s => quoteString s
  | .arr items => "[" ++ stringifyItems items ++ "]"
  | .obj members => "\x7b" ++ stringifyMembers members ++ "\x7d"
/-- The elements of an array, separated by commas. -/
def stringifyItems : List Json → String
  | [] => ""
  | [v] => v.stringify
  | v :: rest => v.stringify ++ "," ++ stringifyItems rest
/-- The members of an object, separated by commas. -/
def stringifyMembers : List (String × Json) → String
  | [] => ""
  | [(k, v)] => quoteString k ++ ":" ++ v.stringify
  | (k, v) :: rest => quoteString k ++ ":" ++ v.stringify ++ "," ++ stringifyMembers rest
end

/-! ## Buffers -/

/-- The call `Buffer.from(s)`: the UTF-8 encoding of a string. -/
def Buffer.from (s : String) : ByteArray := s.toUTF8

/-- The call `Buffer.byteLength(s)` for a string argument: the length of its UTF-8 encoding. -/
def Buffer.byteLength (s : String) : Nat := s.utf8ByteSize

/-- The call `Buffer.byteLength(b)` for a buffer argument: the number of bytes it holds. -/
def Buffer.byteLengthOfBuffer (b : ByteArray) : Nat := b.size

/-! ## Requests, outbound requests and responses -/

/-- A header value: Node accepts strings and numbers in `setHeader`. -/
inductive HeaderValue where
  | str (s : String)
  | num (n : Nat)
  deriving DecidableEq, Repr

/-- ASCII lower-casing of a list of characters. -/
def lowerChars (cs : List Char) : List Char := cs.map Char.toLower

/-- Header names are compared without regard to case. -/
def sameName (a b : String) : Bool := lowerChars a.toList == lowerChars b.toList

/-- The inbound request as the proxy hooks see it (`req.method`, `req.originalUrl`, `req.body`,
`req.headers`). -/
structure Req where
  method : String
  originalUrl : String
  body : Option Json
  headers : List (String × HeaderValue)

/-- The outbound request under construction (`proxyReq`): its headers and the chunks written
to it so far. -/
structure ProxyReq where
  headers : List (String × HeaderValue)
  written : List String
  deriving DecidableEq, Repr

/-- The call `proxyReq.setHeader(name, value)`: replaces any header of that name. -/
def ProxyReq.setHeader (p : ProxyReq) (name : String) (value : HeaderValue) : ProxyReq :=
  { p with headers := p.headers.filter (fun h => !sameName h.1 name) ++ [(name, value)] }

/-- The call `proxyReq.getHeader(name)`. -/
def ProxyReq.getHeader (p : ProxyReq) (name : String) : Option HeaderValue :=
  (p.headers.find? (fun h => sameName h.1 name)).map Prod.snd

/-- The call `proxyReq.write(chunk)`. -/
def ProxyReq.write (p : ProxyReq) (chunk : String) : ProxyReq :=
  { p with written := p.written ++ [chunk] }

/-- The body of a response the gateway sends. -/
inductive Body where
  | empty
  | json (v : Json)
  | raw (bytes : String)

/-- A response: status code and body. Response headers are outside the model. -/
structure Response where
  status : Nat
  body : Body

/-- The call `res.status(code).json(value)`. -/
def Response.statusJson (code : Nat) (value : Json) : Response :=
  { status := code, body := .json value }

/-- A JavaScript error object: `err.message` and the optional `err.status`. -/
structure JsError where
  message : String
  status : Option Nat := none
  deriving DecidableEq, Repr

/-! ## Path rewriting (`pathRewrite` of http-proxy-middleware) -/

/-- Remove a leading sequence of characters, when present. -/
def dropLeading? : List Char → List Char → Option (List Char)
  | [], rest => some rest
  | _ :: _, [] => none
  | c :: cs, d :: ds => if c = d then dropLeading? cs ds else none

/-- Match a rewrite key against a path. The keys of this gateway are a `^` anchor followed by
literal characters; the result is what follows the match. -/
def matchKey (key : String) (path : String) : Option (List Char) :=
  match key.toList with
  | '^' :: literal => dropLeading? literal path.toList
  | _ => none

/-- The first rule whose key matches rewrites the path (`path.replace(regex, value)`); a path no
rule matches is left as it is. -/
def rewritePath : List (String × String) → String → String
  | [], path => path
  | (key, value) :: rules, path =>
    match matchKey key path with
    | some rest => value ++ String.mk rest
    | none => rewritePath rules path

/-! ## The three proxies -/

/-- The options given to `createProxyMiddleware`. The hook `onProxyRes` receives the answer
of the backend before it is relayed and is modelled by the answer it leaves. -/
structure ProxyOptions where
  target : String
  changeOrigin : Bool
  pathRewrite : List (String × String)
  timeout : Nat
  proxyTimeout : Nat
  onProxyReq : ProxyReq → Req → ProxyReq
  onProxyRes : Response → Req → Response
  onError : JsError → Response

/-- The test `req.method === 'POST' || req.method === 'PUT' || req.method === 'PATCH'`. -/
def carriesBody (method : String) : Bool :=
  method == "POST" || method == "PUT" || method == "PATCH"

/-- The proxy to the user service (index.js, lines 58-90). -/
def userServiceProxy : ProxyOptions where
  target := "http://user-service:8000"
  changeOrigin := true
  pathRewrite := [("^/api/users", "/users")]
  timeout := 30000
  proxyTimeout := 30000
  onProxyReq := fun proxyReq req =>
    match req.body with
    | some body =>
      if body.truthy && carriesBody req.method then
        let bodyData := body.stringify
        let proxyReq := proxyReq.setHeader "Content-Type" (.str "application/json")
        let proxyReq := proxyReq.setHeader "Content-Length" (.num (Buffer.byteLength bodyData))
        proxyReq.write bodyData
      else proxyReq
    | none => proxyReq
  onProxyRes := fun proxyRes _req => proxyRes
  onError := fun err =>
    Response.statusJson 503 (.obj [
      ("error", .str "User service unavailable"),
      ("message", .str err.message),
      ("service", .str "user-service")])

/-- The proxy to the product service (index.js, lines 93-122). -/
def productServiceProxy : ProxyOptions where
  target := "http://product-service:8081"
  changeOrigin := true
  pathRewrite := [("^/api/products", "/products")]
  timeout := 30000
  proxyTimeout := 30000
  onProxyReq := fun proxyReq req =>
    match req.body with
    | some body =>
      if body.truthy && carriesBody req.method then
        let bodyData := body.stringify
        let proxyReq := proxyReq.setHeader "Content-Type" (.str "application/json")
        let proxyReq := proxyReq.setHeader "Content-Length" (.num (Buffer.byteLength bodyData))
        proxyReq.write bodyData
      else proxyReq
    | none => proxyReq
  onProxyRes := fun proxyRes _req => proxyRes
  onError := fun err =>
    Response.statusJson 503 (.obj [
      ("error", .str "Product service unavailable"),
      ("message", .str err.message),
      ("service", .str "product-service")])

/-- The proxy to the order service (index.js, lines 125-154). -/
def orderServiceProxy : ProxyOptions where
  target := "http://order-service:3001"
  changeOrigin := true
  pathRewrite := [("^/api/orders", "/orders")]
  timeout := 30000
  proxyTimeout := 30000
  onProxyReq := fun proxyReq req =>
    match req.body with
    | some body =>
      if body.truthy && carriesBody req.method then
        let bodyData := body.stringify
        let proxyReq := proxyReq.setHeader "Content-Type" (.str "application/json")
        let proxyReq := proxyReq.setHeader "Content-Length"
          (.num (Buffer.byteLengthOfBuffer (Buffer.from bodyData)))
        proxyReq.write bodyData
      else proxyReq
    | none => proxyReq
  onProxyRes := fun proxyRes _req => proxyRes
  onError := fun err =>
    Response.statusJson 503 (.obj [
      ("error", .str "Order service unavailable"),
      ("message", .str err.message),
      ("service", .str "order-service")])

/-! ## Metrics (metrics.js) -/

/-- The label tuple `(method, route, status, service)` of one sample. -/
structure Labels where
  method : String
  route : String
  status : String
  service : String
  deriving DecidableEq, Repr

/-- The metrics the registry holds for the middleware: the observations of
`http_request_duration_seconds`, the increments of `http_requests_total` (one entry for each
`inc()`), and the value of `active_connections` for each `service` label. -/
structure Registry where
  httpRequestDuration : List (Labels × Rat)
  httpRequestsTotal : List Labels
  activeConnections : String → Int

/-- The call `activeConnections.inc` for one `service` label. -/
def Registry.incActive (reg : Registry) (service : String) : Registry :=
  { reg with activeConnections :=
      fun s => if s = service then reg.activeConnections s + 1 else reg.activeConnections s }

/-- The call `activeConnections.dec` for one `service` label. -/
def Registry.decActive (reg : Registry) (service : String) : Registry :=
  { reg with activeConnections :=
      fun s => if s = service then reg.activeConnections s - 1 else reg.activeConnections s }

/-- The call `httpRequestDuration.labels(...).observe(duration)`. -/
def Registry.observe (reg : Registry) (labels : Labels) (duration : Rat) : Registry :=
  { reg with httpRequestDuration := reg.httpRequestDuration ++ [(labels, duration)] }

/-- The call `httpRequestsTotal.labels(...).inc()`. -/
def Registry.incTotal (reg : Registry) (labels : Labels) : Registry :=
  { reg with httpRequestsTotal := reg.httpRequestsTotal ++ [labels] }

/-- The path part of a URL: what comes before the first `?`. -/
def pathname (url : String) : String :=
  String.mk (url.toList.takeWhile (fun c => c != '?'))

/-- What the `finish` listener of `metricsMiddleware` reads when it runs: `req.method`,
`req.route` (set when an `app.get` route handled the request), `req.url` and
`res.statusCode`. -/
structure Finished where
  method : String
  route : Option String
  url : String
  statusCode : Nat

/-- The `finish` listener registered by `metricsMiddleware` (metrics.js, lines 72-86);
`start` is the instant captured on entry and `now` the reading of `Date.now()` when the
listener runs, both in milliseconds. -/
def onFinish (start now : Int) (f : Finished) (reg : Registry) : Registry :=
  let duration : Rat := ((now - start : Int) : Rat) / 1000
  let route := match f.route with
    | some path => path
    | none => pathname f.url
  let reg := reg.observe ⟨f.method, route, toString f.statusCode, "api-gateway"⟩ duration
  let reg := reg.incTotal ⟨f.method, route, toString f.statusCode, "api-gateway"⟩
  reg.decActive "api-gateway"

/-- How the handling of a request ends, by the events Node emits on the response: a response
that was written out in full (whatever its status) emits `finish` and then `close`; when the
client goes away before a response is written, only `close` is emitted. -/
inductive Exit where
  | responded
  | clientGone
  deriving DecidableEq, Repr

/-- The events emitted on the response object. -/
def Exit.events : Exit → List String
  | .responded => ["finish", "close"]
  | .clientGone => ["close"]

/-- A listener registered with `res.on(event, ...)` by `metricsMiddleware`, with the start
instant it captured. -/
structure Listener where
  event : String
  start : Int
  deriving DecidableEq, Repr

/-- The call `res.emit(event)`: runs the listeners registered for that event, in order. -/
def emit (now : Int) (f : Finished) (listeners : List Listener) (event : String)
    (reg : Registry) : Registry :=
  listeners.foldl (fun reg l => if l.event = event then onFinish l.start now f reg else reg) reg

/-! ## The Express application (index.js) -/

/-- What `express.json` returns for a payload it accepts: in strict mode, the default, only
objects and arrays. -/
inductive Parsed where
  | object (members : List (String × Json))
  | array (items : List Json)

/-- The parsed payload as a value. -/
def Parsed.toJson : Parsed → Json
  | .object members => .obj members
  | .array items => .arr items

/-- What the body parsers (body-parser 1.x, the parsers of Express 4) make of the payload of
an inbound request: no payload, a payload of type `application/json`, one of type
`application/x-www-form-urlencoded` (parsed to an object), or one of a type neither parser
reads. A parser that fails raises an error that carries an HTTP status (400 for malformed
input, 413 above the limit). -/
inductive Payload where
  | absent
  | json (parsed : Except JsError Parsed)
  | urlencoded (parsed : Except JsError (List (String × Json)))
  | other

/-- The error a body parser raises on the payload, if any. -/
def Payload.error? : Payload → Option JsError
  | .json (.error err) => some err
  | .urlencoded (.error err) => some err
  | _ => none

/-- The value of `req.body` once both parsers have run without an error: the parsed payload,
or the empty object the parsers leave when they read nothing. -/
def Payload.body : Payload → Option Json
  | .json (.ok parsed) => some parsed.toJson
  | .urlencoded (.ok members) => some (.obj members)
  | _ => some (.obj [])

/-- An inbound request as it reaches the application. -/
structure Inbound where
  method : String
  url : String
  headers : List (String × HeaderValue)
  payload : Payload

/-- The request sent to a backend. -/
structure Outbound where
  target : String
  method : String
  path : String
  headers : List (String × HeaderValue)
  written : List String
  deriving DecidableEq, Repr

/-- The surroundings of the application: the clock, the process, and the backends. A backend
answers a forwarded request with a response, or the forwarding fails (refused connection,
timeout) with an error. -/
structure Env where
  isoNow : String
  uptime : Json
  nodeEnv : Option String
  startMs : Int
  finishMs : Int
  backend : Outbound → Except JsError Response

/-- The value of `a || b` for strings read from the environment. -/
def orDefault (a : Option String) (b : String) : String :=
  match a with
  | some s => if s != "" then s else b
  | none => b

/-- The handler of `GET /health` (lines 22-30). -/
def healthHandler (env : Env) (_req : Req) : Response :=
  Response.statusJson 200 (.obj [
    ("status", .str "healthy"),
    ("service", .str "api-gateway"),
    ("timestamp", .str env.isoNow),
    ("uptime", env.uptime),
    ("environment", .str (orDefault env.nodeEnv "development"))])

/-- The handler of `GET /ready` (lines 32-38). -/
def readyHandler (env : Env) (_req : Req) : Response :=
  Response.statusJson 200 (.obj [
    ("status", .str "ready"),
    ("service", .str "api-gateway"),
    ("timestamp", .str env.isoNow)])

/-- The handler of `GET /` (lines 41-55); `res.json` without `res.status` answers 200. -/
def rootHandler (_env : Env) (_req : Req) : Response :=
  Response.statusJson 200 (.obj [
    ("service", .str "API Gateway"),
    ("version", .str "1.0.0"),
    ("description", .str "Microservices API Gateway - Fixed Version"),
    ("endpoints", .obj [
      ("health", .str "/health"),
      ("ready", .str "/ready"),
      ("users", .str "/api/users"),
      ("products", .str "/api/products"),
      ("orders", .str "/api/orders")]),
    ("status", .str "All services configured and running")])

/-- The 404 handler (lines 162-169). -/
def notFoundHandler (env : Env) (req : Req) : Response :=
  Response.statusJson 404 (.obj [
    ("error", .str "Not Found"),
    ("message", .str "The requested resource was not found"),
    ("path", .str req.originalUrl),
    ("timestamp", .str env.isoNow)])

/-- The status `err.status || 500`. -/
def errorStatus (err : JsError) : Nat :=
  match err.status with
  | some code => if code != 0 then code else 500
  | none => 500

/-- The error handler (lines 172-178). -/
def errorHandler (env : Env) (err : JsError) (_req : Req) : Response :=
  Response.statusJson (errorStatus err) (.obj [
    ("error", .str (if err.message != "" then err.message else "Internal Server Error")),
    ("timestamp", .str env.isoNow)])

/-- A layer of the application, as registered by `app.use` and `app.get`. -/
inductive Layer where
  | helmet
  | cors
  | morgan
  | jsonParser
  | urlencodedParser
  | metricsMiddleware
  | get (path : String) (handler : Env → Req → Response)
  | proxy (mount : String) (options : ProxyOptions)
  | use (handler : Env → Req → Response)
  | useError (handler : Env → JsError → Req → Response)

/-- The layers of the gateway in the order index.js registers them (lines 13-178). -/
def gatewayStack : List Layer :=
  [ .helmet,
    .cors,
    .morgan,
    .jsonParser,
    .urlencodedParser,
    .get "/health" healthHandler,
    .get "/ready" readyHandler,
    .get "/" rootHandler,
    .proxy "/api/users" userServiceProxy,
    .proxy "/api/products" productServiceProxy,
    .proxy "/api/orders" orderServiceProxy,
    .use notFoundHandler,
    .useError errorHandler ]

/-- Whether a route registered with `app.get(path, ...)` matches a path name: the whole path,
without regard to case, with an optional trailing slash. -/
def routeMatches (path : String) (name : String) : Bool :=
  let r := lowerChars path.toList
  let p := lowerChars name.toList
  if r.getLast? = some '/' then p == r || p == r.dropLast
  else p == r || p == r ++ ['/']

/-- Whether what follows a mount in a path starts a new segment: nothing, or a `/`. -/
def atBoundary : List Char → Bool
  | [] => true
  | c :: _ => c == '/'

/-- Whether a middleware mounted with `app.use(mount, ...)` matches a path name: the mount,
without regard to case, followed by the end of the path or by a `/`. -/
def mountMatches (mount : String) (name : String) : Bool :=
  match dropLeading? (lowerChars mount.toList) (lowerChars name.toList) with
  | some rest => atBoundary rest
  | none => false

/-- The host of a target URL, which `changeOrigin` puts in the `Host` header. -/
def hostOf (target : String) : String :=
  match dropLeading? "http://".toList target.toList with
  | some rest => String.mk rest
  | none => target

/-- The request the proxy middleware sends: the path is rewritten, the headers of the inbound
request are copied, and `onProxyReq` runs on the outbound request before it is sent. -/
def outbound (options : ProxyOptions) (req : Req) : Outbound :=
  let start : ProxyReq := { headers := req.headers, written := [] }
  let start := if options.changeOrigin then start.setHeader "host" (.str (hostOf options.target))
    else start
  let proxyReq := options.onProxyReq start req
  { target := options.target
    method := req.method
    path := rewritePath options.pathRewrite req.originalUrl
    headers := proxyReq.headers
    written := proxyReq.written }

/-- The proxy middleware: `onProxyRes` runs on the answer of the backend, which is then
relayed; a failure to forward goes to `onError`. -/
def forward (env : Env) (options : ProxyOptions) (req : Req) : Response :=
  match env.backend (outbound options req) with
  | .ok proxyRes => options.onProxyRes proxyRes req
  | .error err => options.onError err

/-- What travels with a request along the stack: `req.body`, the registry, and the listeners
registered on the response. -/
structure Trip where
  body : Option Json
  registry : Registry
  listeners : List Listener

/-- The outcome of dispatching a request: the response, what the request object holds when the
response is written (`req.route`, `req.url`), the registry and the listeners on the response. -/
structure Served where
  response : Response
  route : Option String
  url : String
  registry : Registry
  listeners : List Listener

/-- The request object handed to a handler. -/
def Inbound.req (inb : Inbound) (body : Option Json) : Req :=
  { method := inb.method, originalUrl := inb.url, body := body, headers := inb.headers }

/-- The body a parser leaves in `req.body` when it does not read the payload: the statement
`req.body = req.body || EMPTY`, where `EMPTY` is a fresh empty object. -/
def defaultBody (body : Option Json) : Option Json :=
  if truthy body then body else some (.obj [])

/-- The Express router: the layers are tried in order. A layer that calls `next()` passes to
the layer after it; after `next(err)` only error handlers are tried. When the stack is
exhausted Express answers by itself (404, or the status of the error). -/
def dispatch (env : Env) (inb : Inbound) : List Layer → Trip → Option JsError → Served
  | [], t, none =>
    ⟨⟨404, .empty⟩, none, inb.url, t.registry, t.listeners⟩
  | [], t, some err =>
    ⟨⟨errorStatus err, .empty⟩, none, inb.url, t.registry, t.listeners⟩
  | .useError handler :: _, t, some err =>
    ⟨handler env err (inb.req t.body), none, inb.url, t.registry, t.listeners⟩
  | _ :: rest, t, some err => dispatch env inb rest t (some err)
  | .helmet :: rest, t, none => dispatch env inb rest t none
  | .cors :: rest, t, none =>
    if inb.method = "OPTIONS" then ⟨⟨204, .empty⟩, none, inb.url, t.registry, t.listeners⟩
    else dispatch env inb rest t none
  | .morgan :: rest, t, none => dispatch env inb rest t none
  | .jsonParser :: rest, t, none =>
    match inb.payload with
    | .json (.ok parsed) => dispatch env inb rest { t with body := some parsed.toJson } none
    | .json (.error err) =>
      dispatch env inb rest { t with body := defaultBody t.body } (some err)
    | _ => dispatch env inb rest { t with body := defaultBody t.body } none
  | .urlencodedParser :: rest, t, none =>
    match inb.payload with
    | .urlencoded (.ok members) =>
      dispatch env inb rest { t with body := some (.obj members) } none
    | .urlencoded (.error err) =>
      dispatch env inb rest { t with body := defaultBody t.body } (some err)
    | _ => dispatch env inb rest { t with body := defaultBody t.body } none
  | .metricsMiddleware :: rest, t, none =>
    dispatch env inb rest
      { t with registry := t.registry.incActive "api-gateway"
               listeners := t.listeners ++ [⟨"finish", env.startMs⟩] } none
  | .get path handler :: rest, t, none =>
    if (inb.method = "GET" ∨ inb.method = "HEAD") ∧ routeMatches path (pathname inb.url) then
      ⟨handler env (inb.req t.body), some path, inb.url, t.registry, t.listeners⟩
    else dispatch env inb rest t none
  | .proxy mount options :: rest, t, none =>
    if mountMatches mount (pathname inb.url) then
      ⟨forward env options (inb.req t.body), none,
        rewritePath options.pathRewrite inb.url, t.registry, t.listeners⟩
    else dispatch env inb rest t none
  | .use handler :: _, t, none =>
    ⟨handler env (inb.req t.body), none, inb.url, t.registry, t.listeners⟩
  | .useError _ :: rest, t, none => dispatch env inb rest t none

/-- The gateway serving one request, from a given registry. -/
def serve (env : Env) (inb : Inbound) (reg : Registry) : Served :=
  dispatch env inb gatewayStack { body := none, registry := reg, listeners := [] } none

/-- The response of the gateway to a request. -/
def handle (env : Env) (inb : Inbound) (reg : Registry) : Response :=
  (serve env inb reg).response

/-- The registry once the handling of a request has ended in the given way: the events of the
exit are emitted on the response, in order. -/
def settle (env : Env) (inb : Inbound) (s : Served) (exit : Exit) : Registry :=
  exit.events.foldl
    (fun reg event =>
      emit env.finishMs ⟨inb.method, s.route, s.url, s.response.status⟩ s.listeners event reg)
    s.registry

/-- Whether a layer is a proxy middleware. -/
def Layer.isProxy : Layer → Bool
  | .proxy _ _ => true
  | _ => false

/-- Whether a layer is `metricsMiddleware`. -/
def Layer.isMetrics : Layer → Bool
  | .metricsMiddleware => true
  | _ => false

/-- A suffix made of trailing path segments and a query string, either of them possibly
empty: it is empty or starts with `/` or with `?`. -/
def trailing (s : String) : Bool :=
  match s.toList with
  | [] => true
  | c :: _ => c == '/' || c == '?'

/-- An environment in which all three backends are unreachable. -/
def Env.allDown : Env where
  isoNow := "2024-05-01T10:00:00.000Z"
  uptime := .num 12
  nodeEnv := none
  startMs := 1000
  finishMs := 1250
  backend := fun _ => .error { message := "connect ECONNREFUSED" }

/-- A registry that has recorded nothing. -/
def Registry.fresh : Registry where
  httpRequestDuration := []
  httpRequestsTotal := []
  activeConnections := fun _ => 0

/-- Whether no route and no mount of the gateway matches the path of a URL. -/
def unrouted (url : String) : Bool :=
  !routeMatches "/health" (pathname url) && !routeMatches "/ready" (pathname url) &&
  !routeMatches "/" (pathname url) && !mountMatches "/api/users" (pathname url) &&
  !mountMatches "/api/products" (pathname url) && !mountMatches "/api/orders" (pathname url)

/-- The gateway with `metricsMiddleware` mounted in front of its own layers. -/
def serveWrapped (env : Env) (inb : Inbound) (reg : Registry) : Served :=
  dispatch env inb (.metricsMiddleware :: gatewayStack)
    { body := none, registry := reg, listeners := [] } none

/-- The members of an object are looked up by key; each key occurs once in a parsed object. -/
def lookup (members : List (String × Json)) (key : String) : Option Json :=
  (members.find? (fun m => m.1 == key)).map Prod.snd

/-- The property read `body[key]` on a parsed body, for a key that is not a property of
arrays; `none` is `undefined`. -/
def Parsed.get (body : Parsed) (key : String) : Option Json :=
  match body with
  | .object members => lookup members key
  | .array _ => none

/-- The value of `v || d`. -/
def orValue (v : Option Json) (d : Json) : Json :=
  match v with
  | some x => if x.truthy then x else d
  | none => d

/-- The mount of a proxy layer. -/
def Layer.mount? : Layer → Option String
  | .proxy mount _ => some mount
  | _ => none

/-! ## Start-up (index.js, lines 10 and 180-200) -/

/-- What the module does when it is loaded, apart from building the application. -/
inductive StartupAction where
  | listen (port : Json)
  | onSignal (signal : String)

/-- The value of `PORT`: `process.env.PORT || 8080`. -/
def portOf (portEnv : Option String) : Json :=
  match portEnv with
  | some p => if p != "" then .str p else .num 8080
  | none => .num 8080

/-- The actions of the module at start-up: the server listens and the `SIGTERM` handler is
registered only when `NODE_ENV` is not `test`. -/
def startup (nodeEnv : Option String) (portEnv : Option String) : List StartupAction :=
  if nodeEnv ≠ some "test" then [.listen (portOf portEnv), .onSignal "SIGTERM"] else []

/-! ## The metrics endpoint (metrics.js, lines 92-100) -/

/-- A value that is thrown, or handed to `res.end`: a string or an error object. -/
inductive JsValue where
  | text (s : String)
  | error (err : JsError)

/-- The response object of the endpoint: status, headers, the chunks written, and whether the
response has been ended. -/
structure Res where
  statusCode : Nat
  headers : List (String × String)
  chunks : List String
  finished : Bool
  deriving DecidableEq, Repr

/-- The call `res.set(name, value)`. -/
def Res.set (res : Res) (name value : String) : Res :=
  { res with headers := res.headers.filter (fun h => !sameName h.1 name) ++ [(name, value)] }

/-- The call `res.status(code)`. -/
def Res.status (res : Res) (code : Nat) : Res :=
  { res with statusCode := code }

/-- The error Node throws when the chunk given to `res.end` is neither a string nor a buffer
(`ERR_INVALID_ARG_TYPE`). -/
def invalidChunk : JsError :=
  { message := "The \"chunk\" argument must be of type string or an instance of Buffer or Uint8Array. Received an instance of Error" }

/-- The call `res.end(chunk)`: a string is written and the response ended; for an error
object Node throws and the response is left as it was. -/
def Res.endWith (res : Res) (chunk : JsValue) : Res × Option JsError :=
  match chunk with
  | .text s => ({ res with chunks := res.chunks ++ [s], finished := true }, none)
  | .error _ => (res, some invalidChunk)

/-- The endpoint `metricsEndpoint`; `metrics` is the outcome of `await register.metrics()`, the
text or the value the promise was rejected with. The result is the response object and the
error with which the promise of the endpoint is rejected, if any. -/
def metricsEndpoint (contentType : String) (metrics : Except JsValue String) (res : Res) :
    Res × Option JsError :=
  let res := res.set "Content-Type" contentType
  match metrics with
  | .ok text => res.endWith (.text text)
  | .error err => (res.status 500).endWith err

/-- A response object on which nothing has been set. -/
def Res.blank : Res :=
  { statusCode := 200, headers := [], chunks := [], finished := false }

/-- An environment in which every backend answers 422 with a body that is not JSON. -/
def Env.unprocessable : Env :=
  { Env.allDown with backend := fun _ => .ok ⟨422, .raw "detail: invalid"⟩ }

end Gateway

/-! ## The edge function (edge-functions/index.js) -/

namespace Edge

open Gateway

/-- The request of a CloudFront record. -/
structure CfRequest where
  uri : String
  method : String
  querystring : String
  headers : List (String × List (String × String))
  deriving DecidableEq, Repr

/-- A record of a CloudFront event, with its `cf.request`. -/
structure CfRecord where
  request : CfRequest
  deriving DecidableEq, Repr

/-- A CloudFront event. -/
structure CfEvent where
  Records : List CfRecord
  deriving DecidableEq, Repr

/-- The response the function returns. -/
structure CfResponse where
  status : String
  statusDescription : String
  headers : List (String × List (String × String))
  deriving DecidableEq, Repr

/-- The handler `exports.handler`: it reads the request of the first record, which throws when
there is none, and returns a response built from constants. -/
def handler (event : CfEvent) : Except JsError CfResponse :=
  match event.Records with
  | [] => .error { message := "Cannot read properties of undefined (reading 'cf')" }
  | record :: _ =>
    let request := record.request
    let _headers := request.headers
    .ok
      { status := "200"
        statusDescription := "OK"
        headers := [
          ("strict-transport-security",
            [("Strict-Transport-Security", "max-age=31536000; includeSubDomains")]),
          ("x-content-type-options", [("X-Content-Type-Options", "nosniff")]),
          ("x-frame-options", [("X-Frame-Options", "DENY")]),
          ("x-xss-protection", [("X-XSS-Protection", "1; mode=block")]),
          ("content-security-policy", [("Content-Security-Policy", "default-src 'self'")])] }

end Edge

/-! ## The order service (order-service/index.js) -/

namespace OrderService

open Gateway

/-- An order as the service stores it; `userId` is `undefined` when the body had none. -/
structure Order where
  id : String
  userId : Option Json
  products : Json
  totalAmount : Json
  status : String
  createdAt : String
  updatedAt : String

/-- What a response of the service carries. -/
inductive Content where
  | empty
  | order (o : Order)
  | orders (os : List Order)
  | json (v : Json)
  | page

/-- A response of the service; `page` is the page Express writes by itself when no route
answers. -/
structure Reply where
  status : Nat
  content : Content

/-- The surroundings of the service during one request: what `uuidv4()` returns, the first
and the second reading of the clock, the process, and `decodeURIComponent` on a text that
holds escapes. -/
structure World where
  uuid : String
  isoNow : String
  isoLater : String
  uptime : Json
  nodeEnv : Option String
  decodeEscapes : String → Except JsError String

/-- The handler of `GET /` (lines 19-30). -/
def rootHandler : Reply :=
  ⟨200, .json (.obj [
    ("service", .str "Order Service"),
    ("version", .str "1.0.0"),
    ("description", .str "Order management microservice"),
    ("endpoints", .obj [
      ("health", .str "/health"),
      ("ready", .str "/ready"),
      ("orders", .str "/orders")])])⟩

/-- The handler of `GET /health` (lines 33-41). -/
def healthHandler (world : World) : Reply :=
  ⟨200, .json (.obj [
    ("status", .str "healthy"),
    ("service", .str "order-service"),
    ("timestamp", .str world.isoNow),
    ("uptime", world.uptime),
    ("environment", .str (orDefault world.nodeEnv "development"))])⟩

/-- The handler of `GET /ready` (lines 44-50). -/
def readyHandler (world : World) : Reply :=
  ⟨200, .json (.obj [
    ("status", .str "ready"),
    ("service", .str "order-service"),
    ("timestamp", .str world.isoNow)])⟩

/-- The handler of `GET /orders` (lines 53-55). -/
def listOrders (orders : List Order) : Reply × List Order :=
  (⟨200, .orders orders⟩, orders)

/-- The answer `res.status(404).json` gives for an id no order has. -/
def orderNotFound : Reply :=
  ⟨404, .json (.obj [("error", .str "Order not found")])⟩

/-- The handler of `GET /orders/:id` (lines 58-64). -/
def getOrder (id : String) (orders : List Order) : Reply × List Order :=
  match orders.find? (fun o => o.id == id) with
  | none => (orderNotFound, orders)
  | some order => (⟨200, .order order⟩, orders)

/-- The handler of `POST /orders` (lines 67-80). -/
def createOrder (world : World) (body : Parsed) (orders : List Order) : Reply × List Order :=
  let order : Order :=
    { id := world.uuid
      userId := body.get "userId"
      products := orValue (body.get "products") (.arr [])
      totalAmount := orValue (body.get "totalAmount") (.num 0)
      status := "pending"
      createdAt := world.isoNow
      updatedAt := world.isoLater }
  (⟨201, .order order⟩, orders ++ [order])

/-- The statuses `PATCH /orders/:id/status` accepts. -/
def validStatuses : List String :=
  ["pending", "processing", "shipped", "delivered", "cancelled"]

/-- The test `validStatuses.includes(v)`: the value is one of the strings of the list. -/
def includesStatus (v : Option Json) : Option String :=
  match v with
  | some (.str s) => if s ∈ validStatuses then some s else none
  | _ => none

/-- The first order with the given id is changed, the others are left as they are. -/
def modifyFirst (id : String) (change : Order → Order) : List Order → List Order
  | [] => []
  | o :: rest => if o.id == id then change o :: rest else o :: modifyFirst id change rest

/-- The handler of `PATCH /orders/:id/status` (lines 83-97). -/
def updateStatus (world : World) (id : String) (body : Parsed) (orders : List Order) :
    Reply × List Order :=
  match orders.find? (fun o => o.id == id) with
  | none => (orderNotFound, orders)
  | some order =>
    match includesStatus (body.get "status") with
    | none => (⟨400, .json (.obj [("error", .str "Invalid status")])⟩, orders)
    | some status =>
      let change := fun (o : Order) => { o with status := status, updatedAt := world.isoNow }
      (⟨200, .order (change order)⟩, modifyFirst id change orders)

/-- The handler of `DELETE /orders/:id` (lines 100-108). -/
def deleteOrder (id : String) (orders : List Order) : Reply × List Order :=
  match orders.findIdx? (fun o => o.id == id) with
  | none => (orderNotFound, orders)
  | some index =>
    (⟨200, .json (.obj [("message", .str "Order deleted successfully")])⟩,
      orders.eraseIdx index)

/-- The error handler (lines 111-117). -/
def errorReply (world : World) (err : JsError) : Reply :=
  ⟨errorStatus err, .json (.obj [
    ("error", .str (if err.message != "" then err.message else "Internal Server Error")),
    ("timestamp", .str world.isoNow)])⟩

/-- The handlers of the service. -/
inductive Endpoint where
  | root
  | health
  | ready
  | listOrders
  | getOrder
  | createOrder
  | updateStatus
  | deleteOrder
  deriving DecidableEq, Repr

/-- A route: the method and the path it is registered with (`app.get`, `app.post`,
`app.patch`, `app.delete`) and its handler. -/
structure Route where
  method : String
  path : String
  endpoint : Endpoint
  deriving DecidableEq, Repr

/-- The routes of the service in the order index.js registers them. -/
def routes : List Route :=
  [ ⟨"GET", "/", .root⟩,
    ⟨"GET", "/health", .health⟩,
    ⟨"GET", "/ready", .ready⟩,
    ⟨"GET", "/orders", .listOrders⟩,
    ⟨"GET", "/orders/:id", .getOrder⟩,
    ⟨"POST", "/orders", .createOrder⟩,
    ⟨"PATCH", "/orders/:id/status", .updateStatus⟩,
    ⟨"DELETE", "/orders/:id", .deleteOrder⟩ ]

/-- A path cut at every `/`. -/
def splitSlash : List Char → List (List Char)
  | [] => [[]]
  | c :: cs =>
    if c = '/' then [] :: splitSlash cs
    else
      match splitSlash cs with
      | seg :: rest => (c :: seg) :: rest
      | [] => [[c]]

/-- One empty segment at the end, left by a trailing slash, is dropped. -/
def dropTrailingEmpty : List (List Char) → List (List Char)
  | [] => []
  | [[]] => []
  | seg :: rest => seg :: dropTrailingEmpty rest

/-- The segments of a path: what stands between the slashes, after the leading slash and
without the empty segment a trailing slash leaves. -/
def segments (path : String) : List (List Char) :=
  match splitSlash path.toList with
  | [] :: rest => dropTrailingEmpty rest
  | other => dropTrailingEmpty other

/-- Match the segments of a route against those of a path name: a segment that starts with `:`
is a parameter and takes any segment that is not empty, any other segment must be the same
without regard to case. The result is the values of the parameters. -/
def matchSegments : List (List Char) → List (List Char) → Option (List (List Char))
  | [], [] => some []
  | [], _ :: _ => none
  | _ :: _, [] => none
  | (':' :: _) :: ps, seg :: segs =>
    if seg = [] then none else (matchSegments ps segs).map (fun values => seg :: values)
  | p :: ps, seg :: segs =>
    if lowerChars p = lowerChars seg then matchSegments ps segs else none

/-- Whether a route handles a method: its own, and `HEAD` for a `GET` route. -/
def handlesMethod (route : Route) (method : String) : Bool :=
  route.method == method || (route.method == "GET" && method == "HEAD")

/-- The value of a parameter, decoded by the router with `decodeURIComponent`: a value without
`%` is left as it is; when the decoding fails the router raises an error with the status 400
that names the value. -/
def decodeParam (world : World) (raw : List Char) : Except JsError String :=
  if raw.all (fun c => c != '%') then .ok (String.mk raw)
  else
    match world.decodeEscapes (String.mk raw) with
    | .ok value => .ok value
    | .error _ =>
      .error { message := "Failed to decode param '" ++ String.mk raw ++ "'", status := some 400 }

/-- The path of a route matched against the path name of a URL, the first thing the router
does with a route: `none` when the path does not match, else the decoded value of
`req.params.id` (empty for a route without parameter) or the error of the decoding. The
method plays no part in it. -/
def pathMatch (world : World) (url : String) (route : Route) : Option (Except JsError String) :=
  match matchSegments (segments route.path) (segments (pathname url)) with
  | none => none
  | some [] => some (.ok "")
  | some (raw :: _) => some (decodeParam world raw)

/-- The route that answers a request. The router goes through the routes in order; for each
it first matches the path and decodes the parameter, and only then looks at the method. A
route whose path matches but whose parameter cannot be decoded raises the error of the
decoding, whatever the method of the request and of the route; a route whose path matches and
that handles the method answers; any other route is passed over. -/
def resolve (world : World) (method : String) (url : String) :
    List Route → Option (Endpoint × Except JsError String)
  | [] => none
  | route :: rest =>
    match pathMatch world url route with
    | none => resolve world method url rest
    | some (.error err) => some (route.endpoint, .error err)
    | some (.ok id) =>
      if handlesMethod route method then some (route.endpoint, .ok id)
      else resolve world method url rest

/-- What `express.json()` leaves in `req.body`: the parsed payload, or an empty object when it
reads nothing; it raises the error of a payload it cannot parse. -/
def readJson : Payload → Except JsError Parsed
  | .json parsed => parsed
  | _ => .ok (.object [])

/-- A handler run on the parameters, the body and the store. -/
def run (world : World) (endpoint : Endpoint) (id : String) (body : Parsed)
    (orders : List Order) : Reply × List Order :=
  match endpoint with
  | .root => (rootHandler, orders)
  | .health => (healthHandler world, orders)
  | .ready => (readyHandler world, orders)
  | .listOrders => listOrders orders
  | .getOrder => getOrder id orders
  | .createOrder => createOrder world body orders
  | .updateStatus => updateStatus world id body orders
  | .deleteOrder => deleteOrder id orders

/-- The service on one request: `helmet` passes it on, `cors` answers a preflight, the body is
parsed, and the first route that matches answers. An error goes to the error handler; a
request no route matches is answered 404 by Express itself. The result is the response and the
store after the request. -/
def service (world : World) (orders : List Order) (inb : Inbound) : Reply × List Order :=
  if inb.method = "OPTIONS" then (⟨204, .empty⟩, orders)
  else
    match readJson inb.payload with
    | .error err => (errorReply world err, orders)
    | .ok body =>
      match resolve world inb.method inb.url routes with
      | none => (⟨404, .page⟩, orders)
      | some (_, .error err) => (errorReply world err, orders)
      | some (endpoint, .ok id) => run world endpoint id body orders

/-- A world for examples; the requests of the examples hold no escape that is well formed, so
`decodeURIComponent` fails on every text with an escape it is given. -/
def World.sample : World where
  uuid := "3f2b8c1e-0a4d-4e6f-9b7a-5c1d2e3f4a5b"
  isoNow := "2024-05-01T10:00:00.000Z"
  isoLater := "2024-05-01T10:00:00.001Z"
  uptime := .num 12
  nodeEnv := none
  decodeEscapes := fun _ => .error { message := "URI malformed" }

/-- The sample world a moment later, when `uuidv4()` returns another id. -/
def World.next : World :=
  { World.sample with
    uuid := "0b7e6f5d-4c3b-4a29-8f1e-d0c9b8a7f6e5"
    isoNow := "2024-05-01T10:00:05.000Z"
    isoLater := "2024-05-01T10:00:05.001Z" }

/-- An order stored earlier under the id that the sample world generates next. -/
def Order.earlier : Order where
  id := "3f2b8c1e-0a4d-4e6f-9b7a-5c1d2e3f4a5b"
  userId := some (.str "1")
  products := .arr []
  totalAmount := .num 10
  status := "shipped"
  createdAt := "2024-04-30T08:00:00.000Z"
  updatedAt := "2024-04-30T09:00:00.000Z"

/-- The store after a sequence of requests, each served in its own world, from a given
store. -/
def replay (orders : List Order) : List (World × Inbound) → List Order
  | [] => orders
  | (world, inb) :: rest => replay (service world orders inb).2 rest

end OrderService

/-! ## Theorems -/

namespace Gateway

/-! ## Routing lemmas -/

theorem dropLeading?_append (p r : List Char) : dropLeading? p (p ++ r) = some r := by
  induction p with
  | nil => cases r <;> rfl
  | cons c cs ih => simp [dropLeading?, ih]

/-- A request that is not a preflight and whose payload the parsers accept passes the five
leading middleware and reaches the layers after them with `req.body` set. -/
theorem dispatch_preamble (env : Env) (inb : Inbound) (reg : Registry) (rest : List Layer)
    (hm : inb.method ≠ "OPTIONS") (hp : inb.payload.error? = none) :
    dispatch env inb
        (.helmet :: .cors :: .morgan :: .jsonParser :: .urlencodedParser :: rest)
        { body := none, registry := reg, listeners := [] } none =
      dispatch env inb rest
        { body := inb.payload.body, registry := reg, listeners := [] } none := by
  rcases inb with ⟨method, url, headers, payload⟩
  simp only at hm hp
  cases payload with
  | absent => simp [dispatch, hm, Payload.body, defaultBody, truthy]
  | other => simp [dispatch, hm, Payload.body, defaultBody, truthy]
  | json parsed =>
    cases parsed with
    | ok v =>
      cases v <;>
        simp [dispatch, hm, Payload.body, defaultBody, truthy, Json.truthy, Parsed.toJson]
    | error e => simp [Payload.error?] at hp
  | urlencoded parsed =>
    cases parsed with
    | ok v => simp [dispatch, hm, Payload.body, defaultBody, truthy, Json.truthy]
    | error e => simp [Payload.error?] at hp

theorem serve_routes (env : Env) (inb : Inbound) (reg : Registry)
    (hm : inb.method ≠ "OPTIONS") (hp : inb.payload.error? = none) :
    serve env inb reg = dispatch env inb (gatewayStack.drop 5)
      { body := inb.payload.body, registry := reg, listeners := [] } none :=
  dispatch_preamble env inb reg _ hm hp

theorem users_chars : "/api/users".toList = ['/', 'a', 'p', 'i', '/', 'u', 's', 'e', 'r', 's'] :=
  rfl

theorem products_chars :
    "/api/products".toList = ['/', 'a', 'p', 'i', '/', 'p', 'r', 'o', 'd', 'u', 'c', 't', 's'] :=
  rfl

theorem orders_chars :
    "/api/orders".toList = ['/', 'a', 'p', 'i', '/', 'o', 'r', 'd', 'e', 'r', 's'] :=
  rfl

/-- The tail of a path after its mount, for a suffix of segments and query. -/
theorem tail_after_mount (s : String) (hs : trailing s = true) :
    atBoundary (List.map Char.toLower (List.takeWhile (fun c => c != '?') s.data)) = true := by
  rcases s with ⟨cs⟩
  cases cs with
  | nil => rfl
  | cons c rest =>
    simp only [trailing, String.toList, Bool.or_eq_true, beq_iff_eq] at hs
    rcases hs with h | h <;> subst h <;> simp [List.takeWhile, atBoundary]

theorem serve_users (env : Env) (inb : Inbound) (reg : Registry) (s : String)
    (hs : trailing s = true) (hm : inb.method ≠ "OPTIONS") (hp : inb.payload.error? = none)
    (hu : inb.url = "/api/users" ++ s) :
    (serve env inb reg).response = forward env userServiceProxy (inb.req inb.payload.body) := by
  have ht := tail_after_mount s hs
  rw [serve_routes env inb reg hm hp]
  simp [gatewayStack, dispatch, hu, routeMatches, mountMatches, pathname, lowerChars,
    dropLeading?, users_chars, ht]

theorem serve_products (env : Env) (inb : Inbound) (reg : Registry) (s : String)
    (hs : trailing s = true) (hm : inb.method ≠ "OPTIONS") (hp : inb.payload.error? = none)
    (hu : inb.url = "/api/products" ++ s) :
    (serve env inb reg).response = forward env productServiceProxy (inb.req inb.payload.body) := by
  have ht := tail_after_mount s hs
  rw [serve_routes env inb reg hm hp]
  simp [gatewayStack, dispatch, hu, routeMatches, mountMatches, pathname, lowerChars,
    dropLeading?, users_chars, products_chars, ht]

theorem serve_orders (env : Env) (inb : Inbound) (reg : Registry) (s : String)
    (hs : trailing s = true) (hm : inb.method ≠ "OPTIONS") (hp : inb.payload.error? = none)
    (hu : inb.url = "/api/orders" ++ s) :
    (serve env inb reg).response = forward env orderServiceProxy (inb.req inb.payload.body) := by
  have ht := tail_after_mount s hs
  rw [serve_routes env inb reg hm hp]
  simp [gatewayStack, dispatch, hu, routeMatches, mountMatches, pathname, lowerChars,
    dropLeading?, users_chars, products_chars, orders_chars, ht]

theorem rewrite_users (s : String) :
    rewritePath userServiceProxy.pathRewrite ("/api/users" ++ s) = "/users" ++ s := by
  have h : "^/api/users".toList = '^' :: "/api/users".toList := rfl
  simp [userServiceProxy, rewritePath, matchKey, h, dropLeading?, users_chars, products_chars, orders_chars]

theorem rewrite_products (s : String) :
    rewritePath productServiceProxy.pathRewrite ("/api/products" ++ s) = "/products" ++ s := by
  have h : "^/api/products".toList = '^' :: "/api/products".toList := rfl
  simp [productServiceProxy, rewritePath, matchKey, h, dropLeading?, users_chars, products_chars, orders_chars]

theorem rewrite_orders (s : String) :
    rewritePath orderServiceProxy.pathRewrite ("/api/orders" ++ s) = "/orders" ++ s := by
  have h : "^/api/orders".toList = '^' :: "/api/orders".toList := rfl
  simp [orderServiceProxy, rewritePath, matchKey, h, dropLeading?, users_chars, products_chars, orders_chars]

/-! ## Headers of the outbound request -/

theorem getHeader_setHeader (p : ProxyReq) (name : String) (value : HeaderValue) :
    (p.setHeader name value).getHeader name = some value := by
  have h : List.find? (fun h => sameName h.1 name)
      (p.headers.filter (fun h => !sameName h.1 name)) = none := by
    simp [List.find?_eq_none]
  simp [ProxyReq.getHeader, ProxyReq.setHeader, List.find?_append, h, sameName]

theorem getHeader_setHeader_other (p : ProxyReq) (name other : String) (value : HeaderValue)
    (hne : sameName name other = false) :
    (p.setHeader other value).getHeader name = p.getHeader name := by
  have hlast : sameName other name = false := by
    simp only [sameName, beq_eq_false_iff_ne, ne_eq] at hne ⊢
    exact fun h => hne h.symm
  have hkeep : ∀ hs : List (String × HeaderValue),
      List.find? (fun h => sameName h.1 name) (hs.filter (fun h => !sameName h.1 other)) =
        List.find? (fun h => sameName h.1 name) hs := by
    intro hs
    induction hs with
    | nil => rfl
    | cons h rest ih =>
      by_cases h1 : sameName h.1 name = true
      · have h2 : sameName h.1 other = false := by
          simp only [sameName, beq_iff_eq, beq_eq_false_iff_ne, ne_eq] at h1 hne ⊢
          exact fun h3 => hne (h1.symm.trans h3)
        simp [List.filter, h2, h1]
      · by_cases h2 : sameName h.1 other = true
        · simp [List.filter, h2, h1, ih]
        · simp [List.filter, h2, h1, ih]
  simp only [ProxyReq.getHeader, ProxyReq.setHeader, List.find?_append, hkeep]
  cases List.find? (fun h => sameName h.1 name) p.headers <;> simp [hlast]

/-! ## The forwarder -/

/-- C1: for each of the three routes and every suffix `s` of trailing segments and query
string, a request for `/api/<resource>` followed by `s` is handed to that resource's proxy,
which sends it to the resource's own target with the path `/<resource>` followed by `s`: only
the leading part is replaced and `s` is carried over as it is. -/
theorem forwarder_rewrites_leading_part (env : Env) (reg : Registry) (inb : Inbound)
    (s : String) (hs : trailing s = true) (hm : inb.method ≠ "OPTIONS")
    (hp : inb.payload.error? = none) :
    (inb.url = "/api/users" ++ s →
      handle env inb reg = forward env userServiceProxy (inb.req inb.payload.body) ∧
      (outbound userServiceProxy (inb.req inb.payload.body)).target =
        "http://user-service:8000" ∧
      (outbound userServiceProxy (inb.req inb.payload.body)).path = "/users" ++ s) ∧
    (inb.url = "/api/products" ++ s →
      handle env inb reg = forward env productServiceProxy (inb.req inb.payload.body) ∧
      (outbound productServiceProxy (inb.req inb.payload.body)).target =
        "http://product-service:8081" ∧
      (outbound productServiceProxy (inb.req inb.payload.body)).path = "/products" ++ s) ∧
    (inb.url = "/api/orders" ++ s →
      handle env inb reg = forward env orderServiceProxy (inb.req inb.payload.body) ∧
      (outbound orderServiceProxy (inb.req inb.payload.body)).target =
        "http://order-service:3001" ∧
      (outbound orderServiceProxy (inb.req inb.payload.body)).path = "/orders" ++ s) := by
  refine ⟨fun hu => ⟨serve_users env inb reg s hs hm hp hu, rfl, ?_⟩,
    fun hu => ⟨serve_products env inb reg s hs hm hp hu, rfl, ?_⟩,
    fun hu => ⟨serve_orders env inb reg s hs hm hp hu, rfl, ?_⟩⟩
  · simp only [outbound, Inbound.req, hu]; exact rewrite_users s
  · simp only [outbound, Inbound.req, hu]; exact rewrite_products s
  · simp only [outbound, Inbound.req, hu]; exact rewrite_orders s

theorem forwarder_rewrites_leading_part_witness :
    handle Env.allDown ⟨"DELETE", "/api/orders/42?force=1", [], .absent⟩ Registry.fresh =
        forward Env.allDown orderServiceProxy
          ⟨"DELETE", "/api/orders/42?force=1", some (.obj []), []⟩ ∧
      (outbound orderServiceProxy
          ⟨"DELETE", "/api/orders/42?force=1", some (.obj []), []⟩).target =
        "http://order-service:3001" ∧
      (outbound orderServiceProxy
          ⟨"DELETE", "/api/orders/42?force=1", some (.obj []), []⟩).path =
        "/orders/42?force=1" :=
  (forwarder_rewrites_leading_part Env.allDown Registry.fresh
    ⟨"DELETE", "/api/orders/42?force=1", [], .absent⟩ "/42?force=1"
    (by decide) (by decide) rfl).2.2 rfl

/-- C2: on each of the three routes, for a POST, PUT or PATCH request whose body `b` was
parsed from JSON, `onProxyReq` writes exactly `JSON.stringify(b)` to the outbound request, sets
`Content-Type` to `application/json` and sets `Content-Length` to the number of bytes of the
UTF-8 encoding of that string, whatever headers the outbound request carried before. -/
theorem onProxyReq_writes_serialized_body (options : ProxyOptions)
    (ho : options = userServiceProxy ∨ options = productServiceProxy ∨
      options = orderServiceProxy)
    (proxyReq : ProxyReq) (req : Req) (b : Parsed)
    (hb : req.body = some b.toJson)
    (hm : req.method = "POST" ∨ req.method = "PUT" ∨ req.method = "PATCH") :
    (options.onProxyReq proxyReq req).written = proxyReq.written ++ [b.toJson.stringify] ∧
    (options.onProxyReq proxyReq req).getHeader "Content-Type" =
      some (.str "application/json") ∧
    (options.onProxyReq proxyReq req).getHeader "Content-Length" =
      some (.num b.toJson.stringify.utf8ByteSize) := by
  have ht : b.toJson.truthy = true := by cases b <;> rfl
  have hc : carriesBody req.method = true := by
    rcases hm with h | h | h <;> rw [h] <;> decide
  have hne : sameName "Content-Type" "Content-Length" = false := by decide
  rcases ho with h | h | h <;> subst h
  · simp only [userServiceProxy, hb, ht, hc, Bool.and_self, if_true]
    refine ⟨rfl, ?_, ?_⟩
    · show (ProxyReq.setHeader _ "Content-Length" _).getHeader "Content-Type" = _
      rw [getHeader_setHeader_other _ _ _ _ hne, getHeader_setHeader]
    · show (ProxyReq.setHeader _ "Content-Length" _).getHeader "Content-Length" = _
      rw [getHeader_setHeader]; rfl
  · simp only [productServiceProxy, hb, ht, hc, Bool.and_self, if_true]
    refine ⟨rfl, ?_, ?_⟩
    · show (ProxyReq.setHeader _ "Content-Length" _).getHeader "Content-Type" = _
      rw [getHeader_setHeader_other _ _ _ _ hne, getHeader_setHeader]
    · show (ProxyReq.setHeader _ "Content-Length" _).getHeader "Content-Length" = _
      rw [getHeader_setHeader]; rfl
  · simp only [orderServiceProxy, hb, ht, hc, Bool.and_self, if_true]
    refine ⟨rfl, ?_, ?_⟩
    · show (ProxyReq.setHeader _ "Content-Length" _).getHeader "Content-Type" = _
      rw [getHeader_setHeader_other _ _ _ _ hne, getHeader_setHeader]
    · show (ProxyReq.setHeader _ "Content-Length" _).getHeader "Content-Length" = _
      rw [getHeader_setHeader]
      simp [Buffer.byteLengthOfBuffer, Buffer.from, String.size_toUTF8]

theorem onProxyReq_writes_serialized_body_witness :
    (orderServiceProxy.onProxyReq ⟨[("content-length", .num 17)], []⟩
        ⟨"PATCH", "/api/orders/7/status", some (.obj [("note", .str "café")]), []⟩).written =
        [] ++ [(Json.obj [("note", .str "café")]).stringify] ∧
      (orderServiceProxy.onProxyReq ⟨[("content-length", .num 17)], []⟩
        ⟨"PATCH", "/api/orders/7/status", some (.obj [("note", .str "café")]), []⟩).getHeader
          "Content-Type" = some (.str "application/json") ∧
      (orderServiceProxy.onProxyReq ⟨[("content-length", .num 17)], []⟩
        ⟨"PATCH", "/api/orders/7/status", some (.obj [("note", .str "café")]), []⟩).getHeader
          "Content-Length" = some (.num (Json.obj [("note", .str "café")]).stringify.utf8ByteSize) :=
  onProxyReq_writes_serialized_body orderServiceProxy (Or.inr (Or.inr rfl))
    ⟨[("content-length", .num 17)], []⟩
    ⟨"PATCH", "/api/orders/7/status", some (.obj [("note", .str "café")]), []⟩
    (.object [("note", .str "café")]) rfl (Or.inr (Or.inr rfl))

/-- The byte length differs from the number of characters as soon as the body holds a
character outside ASCII. -/
theorem byteLength_is_not_the_character_count :
    (Json.obj [("note", .str "café")]).stringify.utf8ByteSize = 16 ∧
      (Json.obj [("note", .str "café")]).stringify.length = 15 := by
  decide

/-- C3: a POST that arrives without a body is not forwarded without one. The parsers leave an
empty object in `req.body`, which is truthy, so `onProxyReq` of the user route writes the two
characters of the serialized empty object and sets `Content-Type` and `Content-Length: 2`. -/
theorem bodyless_post_is_forwarded_with_a_body (env : Env) (reg : Registry) :
    handle env ⟨"POST", "/api/users", [], .absent⟩ reg =
        forward env userServiceProxy ⟨"POST", "/api/users", some (.obj []), []⟩ ∧
      outbound userServiceProxy ⟨"POST", "/api/users", some (.obj []), []⟩ =
        { target := "http://user-service:8000"
          method := "POST"
          path := "/users"
          headers := [("host", .str "user-service:8000"),
            ("Content-Type", .str "application/json"), ("Content-Length", .num 2)]
          written := ["\x7b\x7d"] } :=
  ⟨rfl, by decide⟩

/-- C4: on each of the three routes a forwarding error with message `m` is answered with
status 503 and the envelope of `error`, `message` and `service`, which names the service of
the route that failed and carries `m`. -/
theorem forwarding_failure_is_503 (env : Env) (req : Req) (err : JsError) :
    (env.backend (outbound userServiceProxy req) = .error err →
      forward env userServiceProxy req = Response.statusJson 503 (.obj [
        ("error", .str "User service unavailable"),
        ("message", .str err.message),
        ("service", .str "user-service")])) ∧
    (env.backend (outbound productServiceProxy req) = .error err →
      forward env productServiceProxy req = Response.statusJson 503 (.obj [
        ("error", .str "Product service unavailable"),
        ("message", .str err.message),
        ("service", .str "product-service")])) ∧
    (env.backend (outbound orderServiceProxy req) = .error err →
      forward env orderServiceProxy req = Response.statusJson 503 (.obj [
        ("error", .str "Order service unavailable"),
        ("message", .str err.message),
        ("service", .str "order-service")])) := by
  refine ⟨fun h => ?_, fun h => ?_, fun h => ?_⟩ <;> simp only [forward, h] <;> rfl

theorem forwarding_failure_is_503_witness :
    forward Env.allDown productServiceProxy ⟨"GET", "/api/products", some (.obj []), []⟩ =
      Response.statusJson 503 (.obj [
        ("error", .str "Product service unavailable"),
        ("message", .str "connect ECONNREFUSED"),
        ("service", .str "product-service")]) :=
  (forwarding_failure_is_503 Env.allDown ⟨"GET", "/api/products", some (.obj []), []⟩
    { message := "connect ECONNREFUSED" }).2.1 rfl

/-! ## The gateway's own endpoints and its terminal handlers -/

theorem health_chars : "/health".toList = ['/', 'h', 'e', 'a', 'l', 't', 'h'] := rfl

theorem ready_chars : "/ready".toList = ['/', 'r', 'e', 'a', 'd', 'y'] := rfl

/-- C5: whatever the state of the three backends, `GET /health` is answered 200 with
`status`, `service`, `timestamp`, `uptime` and `environment`, and `GET /ready` is answered 200
with `status`, `service` and `timestamp`; the answer is already given by the layers registered
before the first proxy, and it is the same for every behaviour of the backends. -/
theorem health_and_ready_ignore_backends (env : Env) (reg : Registry) (inb : Inbound)
    (hm : inb.method = "GET") (hp : inb.payload.error? = none) :
    (routeMatches "/health" (pathname inb.url) = true →
      handle env inb reg = Response.statusJson 200 (.obj [
        ("status", .str "healthy"),
        ("service", .str "api-gateway"),
        ("timestamp", .str env.isoNow),
        ("uptime", env.uptime),
        ("environment", .str (orDefault env.nodeEnv "development"))])) ∧
    (routeMatches "/ready" (pathname inb.url) = true →
      handle env inb reg = Response.statusJson 200 (.obj [
        ("status", .str "ready"),
        ("service", .str "api-gateway"),
        ("timestamp", .str env.isoNow)])) ∧
    (routeMatches "/health" (pathname inb.url) = true ∨
        routeMatches "/ready" (pathname inb.url) = true →
      handle env inb reg =
          (dispatch env inb (gatewayStack.take 7)
            { body := none, registry := reg, listeners := [] } none).response ∧
      ∀ backend, handle { env with backend := backend } inb reg = handle env inb reg) ∧
    (gatewayStack.take 7).all (fun layer => !layer.isProxy) = true := by
  have hm' : inb.method ≠ "OPTIONS" := by rw [hm]; decide
  have hhealth : ∀ env : Env, routeMatches "/health" (pathname inb.url) = true →
      handle env inb reg = healthHandler env (inb.req inb.payload.body) := by
    intro env h
    simp only [handle]
    rw [serve_routes env inb reg hm' hp]
    simp [gatewayStack, dispatch, hm, h]
  have hready : ∀ env : Env, routeMatches "/ready" (pathname inb.url) = true →
      handle env inb reg = readyHandler env (inb.req inb.payload.body) := by
    intro env h
    have h2 : routeMatches "/health" (pathname inb.url) = false := by
      simp [routeMatches, lowerChars, health_chars, ready_chars] at h ⊢
      rcases h with h | h <;> simp [h]
    simp only [handle]
    rw [serve_routes env inb reg hm' hp]
    simp [gatewayStack, dispatch, hm, h, h2]
  have hearly : routeMatches "/health" (pathname inb.url) = true ∨
      routeMatches "/ready" (pathname inb.url) = true →
      handle env inb reg =
        (dispatch env inb (gatewayStack.take 7)
          { body := none, registry := reg, listeners := [] } none).response := by
    intro h
    have hd : gatewayStack.take 7 =
        .helmet :: .cors :: .morgan :: .jsonParser :: .urlencodedParser ::
          [.get "/health" healthHandler, .get "/ready" readyHandler] := rfl
    rw [hd, dispatch_preamble env inb reg _ hm' hp]
    rcases h with h | h
    · rw [hhealth env h]; simp [dispatch, hm, h]
    · have h2 : routeMatches "/health" (pathname inb.url) = false := by
        simp [routeMatches, lowerChars, health_chars, ready_chars] at h ⊢
        rcases h with h | h <;> simp [h]
      rw [hready env h]; simp [dispatch, hm, h, h2]
  refine ⟨fun h => hhealth env h, fun h => hready env h, fun h => ⟨hearly h, ?_⟩, rfl⟩
  intro backend
  rcases h with h | h
  · rw [hhealth env h, hhealth _ h]; rfl
  · rw [hready env h, hready _ h]; rfl

theorem health_and_ready_ignore_backends_witness :
    handle Env.allDown ⟨"GET", "/health", [], .absent⟩ Registry.fresh =
      Response.statusJson 200 (.obj [
        ("status", .str "healthy"),
        ("service", .str "api-gateway"),
        ("timestamp", .str Env.allDown.isoNow),
        ("uptime", Env.allDown.uptime),
        ("environment", .str (orDefault Env.allDown.nodeEnv "development"))]) :=
  (health_and_ready_ignore_backends Env.allDown Registry.fresh
    ⟨"GET", "/health", [], .absent⟩ rfl rfl).1 (by decide)

/-- C6, as stated, fails: a request for a path that nothing matches is answered 400 when its
JSON payload is malformed, and 204 when it is a preflight. -/
theorem unrouted_request_not_always_404 :
    unrouted "/nope" = true ∧
    (handle Env.allDown
      ⟨"POST", "/nope", [], .json (.error ⟨"Unexpected end of JSON input", some 400⟩)⟩ Registry.fresh).status = 400 ∧
    (handle Env.allDown ⟨"OPTIONS", "/nope", [], .absent⟩ Registry.fresh).status = 204 := by
  decide

/-- C6, amended: a request that is not a preflight, whose payload the parsers accept and whose
path no route and no mount matches is answered 404 with `error`, `message`, the requested URL
as `path`, and a timestamp. -/
theorem unrouted_request_is_404 (env : Env) (reg : Registry) (inb : Inbound)
    (hm : inb.method ≠ "OPTIONS") (hp : inb.payload.error? = none)
    (hu : unrouted inb.url = true) :
    handle env inb reg = Response.statusJson 404 (.obj [
      ("error", .str "Not Found"),
      ("message", .str "The requested resource was not found"),
      ("path", .str inb.url),
      ("timestamp", .str env.isoNow)]) := by
  simp only [unrouted, Bool.and_eq_true, Bool.not_eq_true'] at hu
  obtain ⟨⟨⟨⟨⟨h1, h2⟩, h3⟩, h4⟩, h5⟩, h6⟩ := hu
  simp only [handle]
  rw [serve_routes env inb reg hm hp]
  simp [gatewayStack, dispatch, h1, h2, h3, h4, h5, h6, notFoundHandler, Inbound.req]

theorem unrouted_request_is_404_witness :
    handle Env.allDown ⟨"GET", "/api/nonexistent?x=1", [], .absent⟩ Registry.fresh =
      Response.statusJson 404 (.obj [
        ("error", .str "Not Found"),
        ("message", .str "The requested resource was not found"),
        ("path", .str "/api/nonexistent?x=1"),
        ("timestamp", .str Env.allDown.isoNow)]) :=
  unrouted_request_is_404 Env.allDown Registry.fresh
    ⟨"GET", "/api/nonexistent?x=1", [], .absent⟩ (by decide) rfl (by decide)

/-- C7, as stated, fails: the error a body parser raises on malformed JSON carries the status
400, and the error handler answers with that status, not with 500. -/
theorem parse_error_is_not_500 :
    (handle Env.allDown
      ⟨"POST", "/api/users", [], .json (.error ⟨"Unexpected token", some 400⟩)⟩ Registry.fresh).status = 400 := by
  decide

/-- C7, amended: an error raised by the middleware of the gateway is answered by the error
handler with a body of `error` (the message of the error, or `Internal Server Error` when it
has none) and `timestamp`; the status is the one the error carries, and 500 when it carries
none. -/
theorem uncaught_error_status (env : Env) (reg : Registry) (inb : Inbound) (err : JsError)
    (hm : inb.method ≠ "OPTIONS") (he : inb.payload.error? = some err) :
    handle env inb reg = Response.statusJson (errorStatus err) (.obj [
      ("error", .str (if err.message != "" then err.message else "Internal Server Error")),
      ("timestamp", .str env.isoNow)]) ∧
    (err.status = none → (handle env inb reg).status = 500) ∧
    (∀ code, err.status = some code → code ≠ 0 → (handle env inb reg).status = code) := by
  have h : handle env inb reg = errorHandler env err (inb.req (some (.obj []))) := by
    rcases inb with ⟨method, url, headers, payload⟩
    simp only at hm he
    cases payload with
    | absent => simp [Payload.error?] at he
    | other => simp [Payload.error?] at he
    | json parsed =>
      cases parsed with
      | ok v => simp [Payload.error?] at he
      | error e =>
        simp only [Payload.error?, Option.some.injEq] at he
        subst he
        simp [handle, serve, gatewayStack, dispatch, hm, defaultBody, truthy]
    | urlencoded parsed =>
      cases parsed with
      | ok v => simp [Payload.error?] at he
      | error e =>
        simp only [Payload.error?, Option.some.injEq] at he
        subst he
        simp [handle, serve, gatewayStack, dispatch, hm, defaultBody, truthy, Json.truthy]
  refine ⟨by rw [h]; rfl, fun hs => ?_, fun code hs hc => ?_⟩
  · rw [h]; simp [errorHandler, Response.statusJson, errorStatus, hs]
  · rw [h]; simp [errorHandler, Response.statusJson, errorStatus, hs, hc]

theorem uncaught_error_status_witness :
    (handle Env.allDown
      ⟨"PUT", "/api/products/3", [], .urlencoded (.error ⟨"request entity too large", some 413⟩)⟩ Registry.fresh).status = 413 :=
  (uncaught_error_status Env.allDown Registry.fresh
    ⟨"PUT", "/api/products/3", [], .urlencoded (.error ⟨"request entity too large", some 413⟩)⟩
    ⟨"request entity too large", some 413⟩ (by decide) rfl).2.2
      413 rfl (by decide)

/-! ## Observability -/

/-- Layers other than `metricsMiddleware` leave the registry and the listeners on the
response as they are. -/
theorem dispatch_untracked (env : Env) (inb : Inbound) :
    ∀ (stack : List Layer), (∀ layer ∈ stack, layer.isMetrics = false) →
      ∀ (t : Trip) (e : Option JsError),
        (dispatch env inb stack t e).registry = t.registry ∧
        (dispatch env inb stack t e).listeners = t.listeners
  | [], _, t, e => by cases e <;> simp [dispatch]
  | layer :: rest, h, t, e => by
    have ih := dispatch_untracked env inb rest (fun l hl => h l (List.mem_cons_of_mem _ hl))
    have hl := h layer (List.mem_cons_self _ _)
    cases e with
    | some err =>
      cases layer <;> simp only [dispatch] <;>
        first | exact ih _ _ | exact ⟨trivial, trivial⟩
    | none =>
      cases layer with
      | metricsMiddleware => simp [Layer.isMetrics] at hl
      | helmet => simp only [dispatch]; exact ih _ _
      | morgan => simp only [dispatch]; exact ih _ _
      | cors =>
        simp only [dispatch]
        split
        · exact ⟨rfl, rfl⟩
        · exact ih _ _
      | jsonParser =>
        simp only [dispatch]
        split <;> exact ih _ _
      | urlencodedParser =>
        simp only [dispatch]
        split <;> exact ih _ _
      | get path handler =>
        simp only [dispatch]
        split
        · exact ⟨rfl, rfl⟩
        · exact ih _ _
      | proxy mount options =>
        simp only [dispatch]
        split
        · exact ⟨rfl, rfl⟩
        · exact ih _ _
      | use handler => simp only [dispatch]; exact ⟨trivial, trivial⟩
      | useError handler => simp only [dispatch]; exact ih _ _

theorem gatewayStack_has_no_metrics : ∀ layer ∈ gatewayStack, layer.isMetrics = false := by
  intro layer h
  simp only [gatewayStack, List.mem_cons, List.mem_singleton, List.not_mem_nil, or_false] at h
  rcases h with h | h | h | h | h | h | h | h | h | h | h | h | h <;> subst h <;> rfl

/-- With `metricsMiddleware` in front, the request reaches the layers of the gateway with the
gauge incremented and one listener on `finish`. -/
theorem serveWrapped_state (env : Env) (inb : Inbound) (reg : Registry) :
    (serveWrapped env inb reg).registry = reg.incActive "api-gateway" ∧
      (serveWrapped env inb reg).listeners = [⟨"finish", env.startMs⟩] := by
  have h := dispatch_untracked env inb gatewayStack gatewayStack_has_no_metrics
    { body := none, registry := reg.incActive "api-gateway",
      listeners := [⟨"finish", env.startMs⟩] } none
  have hs : serveWrapped env inb reg = dispatch env inb gatewayStack
      { body := none, registry := reg.incActive "api-gateway",
        listeners := [⟨"finish", env.startMs⟩] } none := by
    simp [serveWrapped, dispatch]
  rw [hs]
  exact h

theorem settle_responded (env : Env) (inb : Inbound) (s : Served) (start : Int)
    (hl : s.listeners = [⟨"finish", start⟩]) :
    settle env inb s .responded =
      onFinish start env.finishMs ⟨inb.method, s.route, s.url, s.response.status⟩
        s.registry := by
  simp [settle, Exit.events, emit, hl]

theorem settle_clientGone (env : Env) (inb : Inbound) (s : Served) (start : Int)
    (hl : s.listeners = [⟨"finish", start⟩]) :
    settle env inb s .clientGone = s.registry := by
  simp [settle, Exit.events, emit, hl]

/-- C8: `GET /metrics` is not served by the gateway. No layer of index.js is registered for
that path, so the request falls through to the 404 handler. -/
theorem metrics_path_is_answered_404 (env : Env) (reg : Registry) :
    handle env ⟨"GET", "/metrics", [], .absent⟩ reg = Response.statusJson 404 (.obj [
      ("error", .str "Not Found"),
      ("message", .str "The requested resource was not found"),
      ("path", .str "/metrics"),
      ("timestamp", .str env.isoNow)]) :=
  rfl

/-- C9: the gauge is not decremented on every exit path. For a request wrapped by
`metricsMiddleware`, a response written in full brings `active_connections` back to its value
before the request, but when the client goes away before a response is written the gauge
stays one above it: the only listener is on `finish`, which is not emitted then. -/
theorem gauge_stays_up_when_client_goes_away (env : Env) (reg : Registry) (inb : Inbound) :
    (settle env inb (serveWrapped env inb reg) .responded).activeConnections "api-gateway" =
        reg.activeConnections "api-gateway" ∧
      (settle env inb (serveWrapped env inb reg) .clientGone).activeConnections "api-gateway" =
        reg.activeConnections "api-gateway" + 1 := by
  have h := serveWrapped_state env inb reg
  constructor
  · rw [settle_responded env inb _ env.startMs h.2, h.1]
    simp [onFinish, Registry.decActive, Registry.incTotal, Registry.observe,
      Registry.incActive]
  · rw [settle_clientGone env inb _ env.startMs h.2, h.1]
    simp [Registry.incActive]

/-- A request wrapped by `metricsMiddleware` whose response is written in full leaves exactly
one observation and one increment, under the same labels. -/
theorem wrapped_request_records_once (env : Env) (reg : Registry) (inb : Inbound) :
    ∃ labels : Labels,
      (settle env inb (serveWrapped env inb reg) .responded).httpRequestsTotal =
        reg.httpRequestsTotal ++ [labels] ∧
      (settle env inb (serveWrapped env inb reg) .responded).httpRequestDuration =
        reg.httpRequestDuration ++ [(labels, ((env.finishMs - env.startMs : Int) : Rat) / 1000)] ∧
      labels.method = inb.method ∧
      labels.status = toString (serveWrapped env inb reg).response.status ∧
      labels.service = "api-gateway" := by
  have h := serveWrapped_state env inb reg
  refine ⟨⟨inb.method,
    (match (serveWrapped env inb reg).route with
      | some path => path
      | none => pathname (serveWrapped env inb reg).url),
    toString (serveWrapped env inb reg).response.status, "api-gateway"⟩, ?_, ?_, rfl, rfl, rfl⟩
  · rw [settle_responded env inb _ env.startMs h.2, h.1]
    simp [onFinish, Registry.decActive, Registry.incTotal, Registry.observe,
      Registry.incActive]
  · rw [settle_responded env inb _ env.startMs h.2, h.1]
    simp [onFinish, Registry.decActive, Registry.incTotal, Registry.observe,
      Registry.incActive]

/-- C10: the gateway emits no observability record. Its stack (index.js) does not contain
`metricsMiddleware`, so whatever the request and however its handling ends, no observation is
added to `http_request_duration_seconds` and `http_requests_total` is not incremented. -/
theorem gateway_records_nothing (env : Env) (reg : Registry) (inb : Inbound) (exit : Exit) :
    (settle env inb (serve env inb reg) exit).httpRequestDuration = reg.httpRequestDuration ∧
      (settle env inb (serve env inb reg) exit).httpRequestsTotal = reg.httpRequestsTotal := by
  have h := dispatch_untracked env inb gatewayStack gatewayStack_has_no_metrics
    { body := none, registry := reg, listeners := [] } none
  cases exit <;> simp [settle, Exit.events, emit, serve, h.1, h.2]

/-! ## The metrics endpoint, start-up, and relaying -/

/-- C11: when `register.metrics()` is rejected with an error object, `metricsEndpoint` does
not complete the response: the status is set to 500, but `res.end` is given the error object,
for which Node throws, so the response is never ended and the endpoint itself ends with an
exception. -/
theorem metricsEndpoint_throws_on_error_object (contentType : String) (e : JsError)
    (res : Res) :
    metricsEndpoint contentType (.error (.error e)) res =
        ({ (res.set "Content-Type" contentType) with statusCode := 500 }, some invalidChunk) ∧
      (metricsEndpoint contentType (.error (.error e)) Res.blank).1.finished = false :=
  ⟨rfl, rfl⟩

/-- A rejection with a string, and the text of the metrics, are written out. -/
theorem metricsEndpoint_ends_on_text (contentType text : String) (res : Res) :
    (metricsEndpoint contentType (.ok text) res).1.finished = true ∧
      (metricsEndpoint contentType (.ok text) res).2 = none ∧
      (metricsEndpoint contentType (.error (.text text)) res).1.finished = true ∧
      (metricsEndpoint contentType (.error (.text text)) res).1.statusCode = 500 ∧
      (metricsEndpoint contentType (.error (.text text)) res).2 = none :=
  ⟨rfl, rfl, rfl, rfl, rfl⟩

/-- A `GET` (or `HEAD`) for `/health` that passes the leading middleware is answered by the
health handler. -/
theorem handle_health (env : Env) (reg : Registry) (inb : Inbound)
    (hm : inb.method = "GET" ∨ inb.method = "HEAD") (hp : inb.payload.error? = none)
    (h : routeMatches "/health" (pathname inb.url) = true) :
    handle env inb reg = healthHandler env (inb.req inb.payload.body) := by
  have hm' : inb.method ≠ "OPTIONS" := by
    rcases hm with h | h <;> rw [h] <;> decide
  simp only [handle]
  rw [serve_routes env inb reg hm' hp]
  simp [gatewayStack, dispatch, hm, h]

/-- A request that the health handler does not answer is answered without a look at
`NODE_ENV`. -/
theorem handle_without_nodeEnv (env : Env) (reg : Registry) (inb : Inbound) (n : Option String)
    (h : ¬((inb.method = "GET" ∨ inb.method = "HEAD") ∧ inb.payload.error? = none ∧
      routeMatches "/health" (pathname inb.url) = true)) :
    handle { env with nodeEnv := n } inb reg = handle env inb reg := by
  rcases inb with ⟨method, url, headers, payload⟩
  simp only at h
  by_cases hopt : method = "OPTIONS"
  · subst hopt
    simp [handle, serve, gatewayStack, dispatch]
  · cases hpe : payload.error? with
    | some err =>
      cases payload with
      | absent => simp [Payload.error?] at hpe
      | other => simp [Payload.error?] at hpe
      | json parsed =>
        cases parsed with
        | ok v => simp [Payload.error?] at hpe
        | error e =>
          simp [handle, serve, gatewayStack, dispatch, hopt, errorHandler]
      | urlencoded parsed =>
        cases parsed with
        | ok v => simp [Payload.error?] at hpe
        | error e =>
          simp [handle, serve, gatewayStack, dispatch, hopt, errorHandler]
    | none =>
      simp only [hpe, true_and] at h
      simp only [handle]
      rw [serve_routes _ _ reg hopt hpe, serve_routes _ _ reg hopt hpe]
      simp only [gatewayStack, List.drop, dispatch]
      rw [if_neg h, if_neg h]
      simp only [readyHandler, rootHandler, notFoundHandler, forward]

/-- C13, as stated, fails: with `NODE_ENV` set to `test` the module neither listens nor
registers the `SIGTERM` handler, with any other value it does both. -/
theorem node_env_test_skips_startup :
    startup (some "test") none = [] ∧
      startup (some "production") none = [.listen (.num 8080), .onSignal "SIGTERM"] ∧
      startup (some "test") none ≠ startup (some "production") none := by
  refine ⟨rfl, rfl, ?_⟩
  simp [startup]

/-- C13, amended: `NODE_ENV` decides whether the server is started and is otherwise only
reported. For two values that both differ from `test` the module performs the same actions at
start-up (it listens on `PORT` and registers the `SIGTERM` handler), while for `test` it
performs none; and for any two values whatever, every request is answered identically, except
that the answers of the health endpoint differ in their `environment` field. -/
theorem node_env_gates_startup_only (n1 n2 : Option String) (port : Option String)
    (env : Env) (reg : Registry) (inb : Inbound) :
    (n1 ≠ some "test" → n2 ≠ some "test" →
      startup n1 port = [.listen (portOf port), .onSignal "SIGTERM"] ∧
      startup n2 port = startup n1 port) ∧
    startup (some "test") port = [] ∧
    (handle { env with nodeEnv := n1 } inb reg = handle { env with nodeEnv := n2 } inb reg ∨
      (handle { env with nodeEnv := n1 } inb reg = Response.statusJson 200 (.obj [
          ("status", .str "healthy"),
          ("service", .str "api-gateway"),
          ("timestamp", .str env.isoNow),
          ("uptime", env.uptime),
          ("environment", .str (orDefault n1 "development"))]) ∧
        handle { env with nodeEnv := n2 } inb reg = Response.statusJson 200 (.obj [
          ("status", .str "healthy"),
          ("service", .str "api-gateway"),
          ("timestamp", .str env.isoNow),
          ("uptime", env.uptime),
          ("environment", .str (orDefault n2 "development"))]))) := by
  refine ⟨fun h1 h2 => ?_, by simp [startup], ?_⟩
  · simp [startup, h1, h2]
  · by_cases h : (inb.method = "GET" ∨ inb.method = "HEAD") ∧ inb.payload.error? = none ∧
        routeMatches "/health" (pathname inb.url) = true
    · right
      exact ⟨handle_health _ reg inb h.1 h.2.1 h.2.2, handle_health _ reg inb h.1 h.2.1 h.2.2⟩
    · left
      rw [handle_without_nodeEnv env reg inb n1 h, handle_without_nodeEnv env reg inb n2 h]

theorem node_env_gates_startup_only_witness :
    startup (some "production") (some "3000") =
        [.listen (portOf (some "3000")), .onSignal "SIGTERM"] ∧
      startup none (some "3000") = startup (some "production") (some "3000") :=
  (node_env_gates_startup_only (some "production") none (some "3000") Env.allDown
    Registry.fresh ⟨"GET", "/health", [], .absent⟩).1 (by decide) (by decide)

/-- C14: on each of the three routes, the answer of the backend to a forwarded call is what
the caller receives, status and body as they are and whatever the status; `onProxyRes` leaves
the answer as it is. -/
theorem backend_answer_is_relayed (env : Env) (reg : Registry) (inb : Inbound) (s : String)
    (res : Response) (hs : trailing s = true) (hm : inb.method ≠ "OPTIONS")
    (hp : inb.payload.error? = none) :
    (inb.url = "/api/users" ++ s →
      env.backend (outbound userServiceProxy (inb.req inb.payload.body)) = .ok res →
      handle env inb reg = res ∧
      userServiceProxy.onProxyRes res (inb.req inb.payload.body) = res) ∧
    (inb.url = "/api/products" ++ s →
      env.backend (outbound productServiceProxy (inb.req inb.payload.body)) = .ok res →
      handle env inb reg = res ∧
      productServiceProxy.onProxyRes res (inb.req inb.payload.body) = res) ∧
    (inb.url = "/api/orders" ++ s →
      env.backend (outbound orderServiceProxy (inb.req inb.payload.body)) = .ok res →
      handle env inb reg = res ∧
      orderServiceProxy.onProxyRes res (inb.req inb.payload.body) = res) := by
  refine ⟨fun hu hb => ⟨?_, rfl⟩, fun hu hb => ⟨?_, rfl⟩, fun hu hb => ⟨?_, rfl⟩⟩
  · simp only [handle]
    rw [serve_users env inb reg s hs hm hp hu]
    simp only [forward, hb]; rfl
  · simp only [handle]
    rw [serve_products env inb reg s hs hm hp hu]
    simp only [forward, hb]; rfl
  · simp only [handle]
    rw [serve_orders env inb reg s hs hm hp hu]
    simp only [forward, hb]; rfl

theorem backend_answer_is_relayed_witness :
    handle Env.unprocessable ⟨"POST", "/api/users", [], .absent⟩ Registry.fresh =
        ⟨422, .raw "detail: invalid"⟩ ∧
      userServiceProxy.onProxyRes ⟨422, .raw "detail: invalid"⟩
        ⟨"POST", "/api/users", some (.obj []), []⟩ = ⟨422, .raw "detail: invalid"⟩ :=
  (backend_answer_is_relayed Env.unprocessable Registry.fresh
    ⟨"POST", "/api/users", [], .absent⟩ "" ⟨422, .raw "detail: invalid"⟩
    (by decide) (by decide) rfl).1 rfl rfl

/-- C19: `GET /` is answered 200 with `service`, `version`, `description`, `endpoints` and
`status`, and the three proxy paths under `endpoints` are, in order, the paths on which the
three proxies are mounted. -/
theorem root_advertises_the_mounts (env : Env) (reg : Registry) (inb : Inbound)
    (hm : inb.method = "GET") (hp : inb.payload.error? = none)
    (hu : routeMatches "/" (pathname inb.url) = true) :
    handle env inb reg = Response.statusJson 200 (.obj [
      ("service", .str "API Gateway"),
      ("version", .str "1.0.0"),
      ("description", .str "Microservices API Gateway - Fixed Version"),
      ("endpoints", .obj [
        ("health", .str "/health"),
        ("ready", .str "/ready"),
        ("users", .str "/api/users"),
        ("products", .str "/api/products"),
        ("orders", .str "/api/orders")]),
      ("status", .str "All services configured and running")]) ∧
    gatewayStack.filterMap Layer.mount? = ["/api/users", "/api/products", "/api/orders"] := by
  have hm' : inb.method ≠ "OPTIONS" := by rw [hm]; decide
  have h1 : routeMatches "/health" (pathname inb.url) = false := by
    have hroot : "/".toList = ['/'] := rfl
    simp [routeMatches, lowerChars, health_chars, hroot] at hu ⊢
    rcases hu with h | h <;> simp [h]
  have h2 : routeMatches "/ready" (pathname inb.url) = false := by
    have hroot : "/".toList = ['/'] := rfl
    simp [routeMatches, lowerChars, ready_chars, hroot] at hu ⊢
    rcases hu with h | h <;> simp [h]
  refine ⟨?_, rfl⟩
  simp only [handle]
  rw [serve_routes env inb reg hm' hp]
  simp [gatewayStack, dispatch, hm, h1, h2, hu, rootHandler]

theorem root_advertises_the_mounts_witness :
    handle Env.allDown ⟨"GET", "/", [], .absent⟩ Registry.fresh =
      Response.statusJson 200 (.obj [
        ("service", .str "API Gateway"),
        ("version", .str "1.0.0"),
        ("description", .str "Microservices API Gateway - Fixed Version"),
        ("endpoints", .obj [
          ("health", .str "/health"),
          ("ready", .str "/ready"),
          ("users", .str "/api/users"),
          ("products", .str "/api/products"),
          ("orders", .str "/api/orders")]),
        ("status", .str "All services configured and running")]) :=
  (root_advertises_the_mounts Env.allDown Registry.fresh ⟨"GET", "/", [], .absent⟩ rfl rfl
    (by decide)).1

end Gateway

namespace Edge

open Gateway

/-- C12: for every CloudFront event with at least one record the handler returns a response
whose headers are exactly the five security headers with their fixed values, and the value
returned is the same for every such event. -/
theorem handler_returns_fixed_headers (event : CfEvent) (h : event.Records ≠ []) :
    handler event = .ok
      { status := "200"
        statusDescription := "OK"
        headers := [
          ("strict-transport-security",
            [("Strict-Transport-Security", "max-age=31536000; includeSubDomains")]),
          ("x-content-type-options", [("X-Content-Type-Options", "nosniff")]),
          ("x-frame-options", [("X-Frame-Options", "DENY")]),
          ("x-xss-protection", [("X-XSS-Protection", "1; mode=block")]),
          ("content-security-policy", [("Content-Security-Policy", "default-src 'self'")])] } ∧
    ∀ other : CfEvent, other.Records ≠ [] → handler other = handler event := by
  have hfixed : ∀ e : CfEvent, e.Records ≠ [] → handler e = handler ⟨[⟨⟨"", "", "", []⟩⟩]⟩ := by
    intro e he
    rcases e with ⟨records⟩
    cases records with
    | nil => exact absurd rfl he
    | cons r rest => rfl
  exact ⟨hfixed event h, fun other ho => (hfixed other ho).trans (hfixed event h).symm⟩

theorem handler_returns_fixed_headers_witness :
    handler ⟨[⟨⟨"/index.html", "GET", "v=1", [("host", [("Host", "example.org")])]⟩⟩]⟩ = .ok
      { status := "200"
        statusDescription := "OK"
        headers := [
          ("strict-transport-security",
            [("Strict-Transport-Security", "max-age=31536000; includeSubDomains")]),
          ("x-content-type-options", [("X-Content-Type-Options", "nosniff")]),
          ("x-frame-options", [("X-Frame-Options", "DENY")]),
          ("x-xss-protection", [("X-XSS-Protection", "1; mode=block")]),
          ("content-security-policy", [("Content-Security-Policy", "default-src 'self'")])] } :=
  (handler_returns_fixed_headers
    ⟨[⟨⟨"/index.html", "GET", "v=1", [("host", [("Host", "example.org")])]⟩⟩]⟩
    (by decide)).1

end Edge

namespace OrderService

open Gateway

/-! ## The order service -/

/-- A request that is not a preflight, whose body parses and that a route matches is answered
by the handler of that route. -/
theorem service_of_resolve (world : World) (orders : List Order) (inb : Inbound)
    (body : Parsed) (endpoint : Endpoint) (id : String)
    (hm : inb.method ≠ "OPTIONS") (hb : readJson inb.payload = .ok body)
    (hr : resolve world inb.method inb.url routes = some (endpoint, .ok id)) :
    service world orders inb = run world endpoint id body orders := by
  simp [service, hm, hb, hr]

theorem find?_of_absent (id : String) (orders : List Order) (h : ∀ o ∈ orders, o.id ≠ id) :
    orders.find? (fun o => o.id == id) = none := by
  simp only [List.find?_eq_none, beq_iff_eq]
  exact h

theorem findIdx?_of_absent (id : String) (orders : List Order) (h : ∀ o ∈ orders, o.id ≠ id) :
    orders.findIdx? (fun o => o.id == id) = none := by
  rw [List.findIdx?_eq_none_iff]
  intro o ho
  simpa using h o ho

/-- With pairwise distinct ids, the order that `findIndex` finds is the only one with that id:
once it is spliced out no order has the id. -/
theorem erase_found (id : String) :
    ∀ orders : List Order, (orders.map (fun o => o.id)).Nodup → (∃ o ∈ orders, o.id = id) →
      ∃ index, orders.findIdx? (fun o => o.id == id) = some index ∧
        (orders.eraseIdx index).find? (fun o => o.id == id) = none
  | [], _, h => by simp at h
  | o :: rest, hn, h => by
    simp only [List.map_cons, List.nodup_cons, List.mem_map, not_exists, not_and] at hn
    by_cases ho : o.id = id
    · refine ⟨0, by simp [List.findIdx?_cons, ho], ?_⟩
      simp only [List.eraseIdx_cons_zero]
      apply find?_of_absent
      intro x hx hxid
      exact hn.1 x hx (hxid.trans ho.symm)
    · have hrest : ∃ x ∈ rest, x.id = id := by
        obtain ⟨x, hx, hxid⟩ := h
        rcases List.mem_cons.mp hx with rfl | hx
        · exact absurd hxid ho
        · exact ⟨x, hx, hxid⟩
      obtain ⟨index, hi, hf⟩ := erase_found id rest hn.2 hrest
      refine ⟨index + 1, ?_, ?_⟩
      · simp [List.findIdx?_cons, ho, List.findIdx?_succ, hi]
      · simp [List.eraseIdx_cons_succ, List.find?_cons, ho, hf]

theorem post_orders_resolves (world : World) :
    resolve world "POST" "/orders" routes = some (.createOrder, .ok "") :=
  rfl

/-- C15, as stated, fails: a `products` or `totalAmount` that is present in the body but falsy
is not echoed; the order gets the empty list and 0 in their place. -/
theorem created_order_replaces_falsy_fields :
    ∃ o : Order,
      service World.sample []
          ⟨"POST", "/orders", [],
            .json (.ok (.object [("userId", .str "7"), ("products", .bool false),
              ("totalAmount", .str "")]))⟩ = (⟨201, .order o⟩, [o]) ∧
        Parsed.get (.object [("userId", .str "7"), ("products", .bool false),
          ("totalAmount", .str "")]) "products" = some (.bool false) ∧
        o.products = .arr [] ∧
        Parsed.get (.object [("userId", .str "7"), ("products", .bool false),
          ("totalAmount", .str "")]) "totalAmount" = some (.str "") ∧
        o.totalAmount = .num 0 :=
  ⟨_, rfl, rfl, rfl, rfl, rfl⟩

/-- C15, amended: for every request body `b`, `POST /orders` is answered 201 with an order
that has the generated id, the status `pending`, `createdAt`, `updatedAt`, and `userId` equal
to `b.userId`; its `products` is `b.products` when that is truthy and the empty list otherwise
(absent or falsy), its `totalAmount` is `b.totalAmount` when that is truthy and 0 otherwise;
and exactly that order is appended to the end of the store. -/
theorem post_creates_pending_order (world : World) (orders : List Order) (inb : Inbound)
    (b : Parsed) (hm : inb.method = "POST") (hu : inb.url = "/orders")
    (hb : readJson inb.payload = .ok b) :
    ∃ o : Order,
      service world orders inb = (⟨201, .order o⟩, orders ++ [o]) ∧
      o.id = world.uuid ∧ o.status = "pending" ∧
      o.createdAt = world.isoNow ∧ o.updatedAt = world.isoLater ∧
      o.userId = b.get "userId" ∧
      (∀ v, b.get "products" = some v → v.truthy = true → o.products = v) ∧
      (∀ v, b.get "products" = some v → v.truthy = false → o.products = .arr []) ∧
      (b.get "products" = none → o.products = .arr []) ∧
      (∀ v, b.get "totalAmount" = some v → v.truthy = true → o.totalAmount = v) ∧
      (∀ v, b.get "totalAmount" = some v → v.truthy = false → o.totalAmount = .num 0) ∧
      (b.get "totalAmount" = none → o.totalAmount = .num 0) := by
  have hm' : inb.method ≠ "OPTIONS" := by rw [hm]; decide
  have hr : resolve world inb.method inb.url routes = some (.createOrder, .ok "") := by
    rw [hm, hu]; exact post_orders_resolves world
  refine ⟨
    { id := world.uuid
      userId := b.get "userId"
      products := orValue (b.get "products") (.arr [])
      totalAmount := orValue (b.get "totalAmount") (.num 0)
      status := "pending"
      createdAt := world.isoNow
      updatedAt := world.isoLater },
    ?_, rfl, rfl, rfl, rfl, rfl, ?_, ?_, ?_, ?_, ?_, ?_⟩
  · rw [service_of_resolve world orders inb b _ _ hm' hb hr]; rfl
  · intro v hv ht; simp [orValue, hv, ht]
  · intro v hv ht; simp [orValue, hv, ht]
  · intro hv; simp [orValue, hv]
  · intro v hv ht; simp [orValue, hv, ht]
  · intro v hv ht; simp [orValue, hv, ht]
  · intro hv; simp [orValue, hv]

theorem post_creates_pending_order_witness :
    ∃ o : Order,
      service World.sample []
          ⟨"POST", "/orders", [], .json (.ok (.object [("userId", .str "67890")]))⟩ =
        (⟨201, .order o⟩, [] ++ [o]) ∧
      o.id = World.sample.uuid ∧ o.status = "pending" ∧ o.products = .arr [] ∧
      o.totalAmount = .num 0 := by
  obtain ⟨o, h1, h2, h3, _, _, _, _, _, h9, _, _, h12⟩ :=
    post_creates_pending_order World.sample []
      ⟨"POST", "/orders", [], .json (.ok (.object [("userId", .str "67890")]))⟩
      (.object [("userId", .str "67890")]) rfl rfl rfl
  exact ⟨o, h1, h2, h3, h9 rfl, h12 rfl⟩

theorem matchSegments_length :
    ∀ (pattern segs values : List (List Char)),
      matchSegments pattern segs = some values → pattern.length = segs.length
  | [], [], _, _ => rfl
  | [], _ :: _, _, h => by simp [matchSegments] at h
  | _ :: _, [], _, h => by simp [matchSegments] at h
  | p :: ps, seg :: segs, values, h => by
    have ih := matchSegments_length ps segs
    simp only [List.length_cons, Nat.add_right_cancel_iff]
    match p, h with
    | [], h =>
      simp only [matchSegments] at h
      split at h
      · exact ih _ h
      · exact absurd h (by simp)
    | c :: cs, h =>
      by_cases hc : c = ':'
      · subst hc
        simp only [matchSegments] at h
        split at h
        · exact absurd h (by simp)
        · cases hm : matchSegments ps segs with
          | none => simp [hm] at h
          | some vs => exact ih vs hm
      · have hstep : matchSegments ((c :: cs) :: ps) (seg :: segs) =
            if lowerChars (c :: cs) = lowerChars seg then matchSegments ps segs else none := by
          rw [matchSegments]
          intro cs' h'
          exact absurd (List.cons.inj h').1 hc
        rw [hstep] at h
        split at h
        · exact ih _ h
        · exact absurd h (by simp)


theorem pathMatch_of_path (world : World) (url : String) (r r' : Route)
    (h : r.path = r'.path) : pathMatch world url r = pathMatch world url r' := by
  simp only [pathMatch, h]

/-- A URL that the router reads as `/orders/<id>` is matched by no route that handles `PUT`,
and by none with an error of decoding. -/
theorem put_unresolved (world : World) (url : String) (id : String)
    (hu : resolve world "GET" url routes = some (.getOrder, .ok id)) :
    resolve world "PUT" url routes = none := by
  simp only [resolve, routes] at hu ⊢
  have hget : ∀ e p, handlesMethod ⟨"GET", p, e⟩ "GET" = true := by
    intro e p; simp [handlesMethod]
  cases h0 : pathMatch world url ⟨"GET", "/", .root⟩ with
  | some r => cases r <;> simp [h0, hget] at hu
  | none =>
  cases h1 : pathMatch world url ⟨"GET", "/health", .health⟩ with
  | some r => cases r <;> simp [h0, h1, hget] at hu
  | none =>
  cases h2 : pathMatch world url ⟨"GET", "/ready", .ready⟩ with
  | some r => cases r <;> simp [h0, h1, h2, hget] at hu
  | none =>
  cases h3 : pathMatch world url ⟨"GET", "/orders", .listOrders⟩ with
  | some r => cases r <;> simp [h0, h1, h2, h3, hget] at hu
  | none =>
  cases h4 : pathMatch world url ⟨"GET", "/orders/:id", .getOrder⟩ with
  | none =>
    have h5 : pathMatch world url ⟨"POST", "/orders", .createOrder⟩ = none :=
      (pathMatch_of_path world url _ _ rfl).trans h3
    have h7 : pathMatch world url ⟨"DELETE", "/orders/:id", .deleteOrder⟩ = none :=
      (pathMatch_of_path world url _ _ rfl).trans h4
    cases h6 : pathMatch world url ⟨"PATCH", "/orders/:id/status", .updateStatus⟩ with
    | none => simp [h0, h1, h2, h3, h4, h5, h6, h7] at hu
    | some r => cases r <;> simp [h0, h1, h2, h3, h4, h5, h6, h7, handlesMethod] at hu
  | some r =>
    cases r with
    | error err => simp [h0, h1, h2, h3, h4, hget] at hu
    | ok value =>
      have h5 : pathMatch world url ⟨"POST", "/orders", .createOrder⟩ = none :=
        (pathMatch_of_path world url _ _ rfl).trans h3
      have h7 : pathMatch world url ⟨"DELETE", "/orders/:id", .deleteOrder⟩ = some (.ok value) :=
        (pathMatch_of_path world url _ _ rfl).trans h4
      have h6 : pathMatch world url ⟨"PATCH", "/orders/:id/status", .updateStatus⟩ = none := by
        simp only [pathMatch] at h4 ⊢
        cases hm4 : matchSegments (segments "/orders/:id") (segments (pathname url)) with
        | none => simp [hm4] at h4
        | some v4 =>
          have hl4 := matchSegments_length _ _ _ hm4
          cases hm6 : matchSegments (segments "/orders/:id/status") (segments (pathname url)) with
          | none => rfl
          | some v6 =>
            have hl6 := matchSegments_length _ _ _ hm6
            have e4 : (segments "/orders/:id").length = 2 := by decide
            have e6 : (segments "/orders/:id/status").length = 3 := by decide
            omega
      simp [h5, h6, h7, handlesMethod]

/-- A `PUT` is matched by no route: the router finds none, or one whose parameter cannot be
decoded. -/
theorem put_finds_no_route (world : World) (url : String) :
    ∀ rs : List Route, (∀ r ∈ rs, handlesMethod r "PUT" = false) →
      resolve world "PUT" url rs = none ∨
        ∃ endpoint err, resolve world "PUT" url rs = some (endpoint, .error err)
  | [], _ => Or.inl rfl
  | r :: rest, h => by
    have ih := put_finds_no_route world url rest (fun x hx => h x (List.mem_cons_of_mem _ hx))
    have hr : handlesMethod r "PUT" = false := h r (List.mem_cons_self _ _)
    simp only [resolve]
    cases hp : pathMatch world url r with
    | none => simpa using ih
    | some outcome =>
      cases outcome with
      | error err => exact Or.inr ⟨r.endpoint, err, rfl⟩
      | ok value => simpa [hr] using ih

/-- Whatever its URL, a `PUT` leaves the store as it is. -/
theorem put_never_changes_the_store (world : World) (orders : List Order) (inb : Inbound)
    (hm : inb.method = "PUT") : (service world orders inb).2 = orders := by
  have hno : ∀ r ∈ routes, handlesMethod r "PUT" = false := by decide
  simp only [service, hm]
  rw [if_neg (by decide)]
  cases readJson inb.payload with
  | error err => rfl
  | ok body =>
    rcases put_finds_no_route world inb.url routes hno with h | ⟨endpoint, err, h⟩
    · simp [h]
    · simp [h]

/-- A `PUT` whose path holds a malformed escape is answered 400 by the error handler: the
router decodes the parameter of the route whose path matches before it looks at the method. -/
theorem put_with_malformed_escape_is_400 :
    service World.sample [] ⟨"PUT", "/orders/%E0%A4%A", [], .absent⟩ =
      (⟨400, .json (.obj [
        ("error", .str "Failed to decode param '%E0%A4%A'"),
        ("timestamp", .str World.sample.isoNow)])⟩, []) :=
  rfl

/-- C18: for every id, whether or not an order has it, and every request body, `PUT
/orders/<id>` is answered 404 by Express itself and leaves the store as it is, because no
route handles `PUT`. The request is a `PUT` whose URL the router reads as `/orders/<id>`, that
is, one for which a `GET` would reach the handler of `/orders/:id` with that id. -/
theorem put_is_answered_404 (world : World) (orders : List Order) (inb : Inbound)
    (b : Parsed) (id : String) (hm : inb.method = "PUT") (hb : readJson inb.payload = .ok b)
    (hu : resolve world "GET" inb.url routes = some (.getOrder, .ok id)) :
    service world orders inb = (⟨404, .page⟩, orders) := by
  have hr : resolve world "PUT" inb.url routes = none := put_unresolved world inb.url id hu
  simp [service, hm, hb, hr]

theorem put_is_answered_404_witness :
    service World.sample [Order.earlier]
        ⟨"PUT", "/orders/3f2b8c1e-0a4d-4e6f-9b7a-5c1d2e3f4a5b", [],
          .json (.ok (.object [("status", .str "completed")]))⟩ =
      (⟨404, .page⟩, [Order.earlier]) :=
  put_is_answered_404 World.sample [Order.earlier]
    ⟨"PUT", "/orders/3f2b8c1e-0a4d-4e6f-9b7a-5c1d2e3f4a5b", [],
      .json (.ok (.object [("status", .str "completed")]))⟩
    (.object [("status", .str "completed")]) "3f2b8c1e-0a4d-4e6f-9b7a-5c1d2e3f4a5b"
    rfl rfl rfl

/-- C16: read after create. When `POST /orders` returns an order with the id `i` that
`uuidv4()` generated, an id no stored order has, an immediately following `GET /orders/i` is
answered 200 with that same order; and for every id that no stored order has, `GET
/orders/<id>` is answered 404 with the error `Order not found`. The ids of the store are all
generated by `uuidv4()` (`stored_ids_are_generated`), so the generated id is one no stored
order has unless `uuidv4()` returns the same id twice. -/
theorem read_after_create (world later : World) (orders : List Order) (post fetch : Inbound)
    (b bf : Parsed) (id : String)
    (hpm : post.method = "POST") (hpu : post.url = "/orders")
    (hpb : readJson post.payload = .ok b)
    (hfm : fetch.method = "GET") (hfb : readJson fetch.payload = .ok bf)
    (hfr : resolve later "GET" fetch.url routes = some (.getOrder, .ok id)) :
    (id = world.uuid → (∀ o ∈ orders, o.id ≠ world.uuid) →
      ∃ o : Order,
        service world orders post = (⟨201, .order o⟩, orders ++ [o]) ∧
        o.id = world.uuid ∧ o.userId = b.get "userId" ∧
        service later (orders ++ [o]) fetch = (⟨200, .order o⟩, orders ++ [o])) ∧
    ((∀ o ∈ orders, o.id ≠ id) →
      service later orders fetch =
        (⟨404, .json (.obj [("error", .str "Order not found")])⟩, orders)) := by
  have hpm' : post.method ≠ "OPTIONS" := by rw [hpm]; decide
  have hfm' : fetch.method ≠ "OPTIONS" := by rw [hfm]; decide
  have hpr : resolve world post.method post.url routes = some (.createOrder, .ok "") := by
    rw [hpm, hpu]; exact post_orders_resolves world
  have hfr' : resolve later fetch.method fetch.url routes = some (.getOrder, .ok id) := by
    rw [hfm]; exact hfr
  constructor
  · intro hid hfresh
    refine ⟨
      { id := world.uuid
        userId := b.get "userId"
        products := orValue (b.get "products") (.arr [])
        totalAmount := orValue (b.get "totalAmount") (.num 0)
        status := "pending"
        createdAt := world.isoNow
        updatedAt := world.isoLater }, ?_, rfl, rfl, ?_⟩
    · rw [service_of_resolve world orders post b _ _ hpm' hpb hpr]; rfl
    · rw [service_of_resolve later _ fetch bf _ _ hfm' hfb hfr']
      simp [run, getOrder, List.find?_append, find?_of_absent world.uuid orders hfresh, hid]
  · intro habsent
    rw [service_of_resolve later _ fetch bf _ _ hfm' hfb hfr']
    simp [run, getOrder, find?_of_absent id orders habsent, orderNotFound]

theorem read_after_create_witness :
    ∃ o : Order,
      service World.next [Order.earlier]
          ⟨"POST", "/orders", [],
            .json (.ok (.object [("userId", .str "11111"), ("totalAmount", .num 199)]))⟩ =
        (⟨201, .order o⟩, [Order.earlier] ++ [o]) ∧
      o.id = World.next.uuid ∧
      o.userId = Parsed.get (.object [("userId", .str "11111"), ("totalAmount", .num 199)])
        "userId" ∧
      service World.sample ([Order.earlier] ++ [o])
          ⟨"GET", "/orders/0b7e6f5d-4c3b-4a29-8f1e-d0c9b8a7f6e5", [], .absent⟩ =
        (⟨200, .order o⟩, [Order.earlier] ++ [o]) :=
  (read_after_create World.next World.sample [Order.earlier]
    ⟨"POST", "/orders", [],
      .json (.ok (.object [("userId", .str "11111"), ("totalAmount", .num 199)]))⟩
    ⟨"GET", "/orders/0b7e6f5d-4c3b-4a29-8f1e-d0c9b8a7f6e5", [], .absent⟩
    (.object [("userId", .str "11111"), ("totalAmount", .num 199)]) (.object [])
    "0b7e6f5d-4c3b-4a29-8f1e-d0c9b8a7f6e5" rfl rfl rfl rfl rfl rfl).1 rfl
    (by simp [Order.earlier, World.next])

/-- C17: in a store whose ids are pairwise distinct, `DELETE /orders/i` for an id that is
present is answered 200 with the message `Order deleted successfully`, and a `GET /orders/i`
that follows is answered 404; for an id that is not present, `DELETE` is answered 404 with the
error `Order not found` and leaves the store as it is. -/
theorem delete_then_get (world later : World) (orders : List Order) (del fetch : Inbound)
    (bd bf : Parsed) (id : String)
    (hdm : del.method = "DELETE") (hdb : readJson del.payload = .ok bd)
    (hdr : resolve world "DELETE" del.url routes = some (.deleteOrder, .ok id))
    (hfm : fetch.method = "GET") (hfb : readJson fetch.payload = .ok bf)
    (hfr : resolve later "GET" fetch.url routes = some (.getOrder, .ok id)) :
    ((orders.map (fun o => o.id)).Nodup → (∃ o ∈ orders, o.id = id) →
      ∃ remaining : List Order,
        service world orders del =
          (⟨200, .json (.obj [("message", .str "Order deleted successfully")])⟩, remaining) ∧
        service later remaining fetch =
          (⟨404, .json (.obj [("error", .str "Order not found")])⟩, remaining)) ∧
    ((∀ o ∈ orders, o.id ≠ id) →
      service world orders del =
        (⟨404, .json (.obj [("error", .str "Order not found")])⟩, orders)) := by
  have hdm' : del.method ≠ "OPTIONS" := by rw [hdm]; decide
  have hfm' : fetch.method ≠ "OPTIONS" := by rw [hfm]; decide
  have hdr' : resolve world del.method del.url routes = some (.deleteOrder, .ok id) := by
    rw [hdm]; exact hdr
  have hfr' : resolve later fetch.method fetch.url routes = some (.getOrder, .ok id) := by
    rw [hfm]; exact hfr
  constructor
  · intro hn hex
    obtain ⟨index, hi, hf⟩ := erase_found id orders hn hex
    refine ⟨orders.eraseIdx index, ?_, ?_⟩
    · rw [service_of_resolve world _ del bd _ _ hdm' hdb hdr']
      simp [run, deleteOrder, hi]
    · rw [service_of_resolve later _ fetch bf _ _ hfm' hfb hfr']
      simp [run, getOrder, hf, orderNotFound]
  · intro habsent
    rw [service_of_resolve world _ del bd _ _ hdm' hdb hdr']
    simp [run, deleteOrder, findIdx?_of_absent id orders habsent, orderNotFound]

theorem delete_then_get_witness :
    ∃ remaining : List Order,
      service World.sample [Order.earlier]
          ⟨"DELETE", "/orders/3f2b8c1e-0a4d-4e6f-9b7a-5c1d2e3f4a5b", [], .absent⟩ =
        (⟨200, .json (.obj [("message", .str "Order deleted successfully")])⟩, remaining) ∧
      service World.sample remaining
          ⟨"GET", "/orders/3f2b8c1e-0a4d-4e6f-9b7a-5c1d2e3f4a5b", [], .absent⟩ =
        (⟨404, .json (.obj [("error", .str "Order not found")])⟩, remaining) :=
  (delete_then_get World.sample World.sample [Order.earlier]
    ⟨"DELETE", "/orders/3f2b8c1e-0a4d-4e6f-9b7a-5c1d2e3f4a5b", [], .absent⟩
    ⟨"GET", "/orders/3f2b8c1e-0a4d-4e6f-9b7a-5c1d2e3f4a5b", [], .absent⟩
    (.object []) (.object []) "3f2b8c1e-0a4d-4e6f-9b7a-5c1d2e3f4a5b"
    rfl rfl rfl rfl rfl rfl).1
    (by simp [Order.earlier]) ⟨Order.earlier, by simp, rfl⟩

end OrderService

namespace Gateway

/-! ## Content-Length across the routes, and rewriting after a mount -/

/-- C21: the three routes compute the same `Content-Length`. For every string `s` the order
route's `Buffer.byteLength(Buffer.from(s))` equals the `Buffer.byteLength(s)` of the user and
product routes, both being the length of the UTF-8 encoding of `s`; so for every request the
three `onProxyReq` hooks leave the same `Content-Length` on the outbound request. -/
theorem routes_agree_on_content_length (s : String) (proxyReq : ProxyReq) (req : Req) :
    Buffer.byteLengthOfBuffer (Buffer.from s) = Buffer.byteLength s ∧
    Buffer.byteLength s = s.utf8ByteSize ∧
    Buffer.byteLengthOfBuffer (Buffer.from s) = (s.toList.map Char.utf8Size).sum ∧
    (orderServiceProxy.onProxyReq proxyReq req).getHeader "Content-Length" =
      (userServiceProxy.onProxyReq proxyReq req).getHeader "Content-Length" ∧
    (productServiceProxy.onProxyReq proxyReq req).getHeader "Content-Length" =
      (userServiceProxy.onProxyReq proxyReq req).getHeader "Content-Length" := by
  have hsize : ∀ t : String, Buffer.byteLengthOfBuffer (Buffer.from t) = Buffer.byteLength t := by
    intro t
    simp [Buffer.byteLengthOfBuffer, Buffer.from, Buffer.byteLength, String.size_toUTF8]
  have hsum : ∀ cs : List Char, String.utf8ByteSize.go cs = (cs.map Char.utf8Size).sum := by
    intro cs
    induction cs with
    | nil => rfl
    | cons c rest ih =>
      rw [String.utf8ByteSize.go, ih, List.map_cons, List.sum_cons, Nat.add_comm]
  refine ⟨hsize s, rfl, ?_, ?_, rfl⟩
  · rw [hsize s]
    rcases s with ⟨cs⟩
    exact hsum cs
  · simp only [orderServiceProxy, userServiceProxy, hsize]

/-- A body with a two-byte, a three-byte and a four-byte character: 14 characters, 20 bytes on
every route. -/
theorem content_length_of_multibyte_body :
    (Json.obj [("note", .str "é€𝄞")]).stringify.length = 14 ∧
      Buffer.byteLength (Json.obj [("note", .str "é€𝄞")]).stringify = 20 ∧
      Buffer.byteLengthOfBuffer (Buffer.from (Json.obj [("note", .str "é€𝄞")]).stringify) = 20 := by
  decide

/-- C22: a URL that Express dispatches to a proxy is not always rewritten. The mount matches
without regard to case, the rewrite key does not: `/api/Users/1` is handed to the user proxy,
and the path sent to the backend is still `/api/Users/1`. -/
theorem mixed_case_path_is_forwarded_unrewritten (env : Env) (reg : Registry) :
    mountMatches "/api/users" (pathname "/api/Users/1") = true ∧
    handle env ⟨"GET", "/api/Users/1", [], .absent⟩ reg =
      forward env userServiceProxy ⟨"GET", "/api/Users/1", some (.obj []), []⟩ ∧
    (outbound userServiceProxy ⟨"GET", "/api/Users/1", some (.obj []), []⟩).target =
      "http://user-service:8000" ∧
    (outbound userServiceProxy ⟨"GET", "/api/Users/1", some (.obj []), []⟩).path =
      "/api/Users/1" :=
  ⟨by decide, rfl, rfl, by decide⟩

/-- A URL whose leading part is the mount in lower case is rewritten. -/
theorem lower_case_path_is_rewritten :
    (outbound userServiceProxy ⟨"GET", "/api/users/1", some (.obj []), []⟩).path = "/users/1" := by
  decide

end Gateway

namespace OrderService

open Gateway

/-! ## The store of the order service -/

theorem includesStatus_valid (v : Option Json) (s : String) (h : includesStatus v = some s) :
    s ∈ validStatuses ∧ v = some (.str s) := by
  match v, h with
  | some (.str t), h =>
    simp only [includesStatus] at h
    by_cases ht : t ∈ validStatuses
    · rw [if_pos ht] at h
      simp only [Option.some.injEq] at h
      subst h
      exact ⟨ht, rfl⟩
    · rw [if_neg ht] at h
      exact absurd h (by simp)
  | none, h => simp [includesStatus] at h
  | some .null, h => simp [includesStatus] at h
  | some (.bool _), h => simp [includesStatus] at h
  | some (.num _), h => simp [includesStatus] at h
  | some (.arr _), h => simp [includesStatus] at h
  | some (.obj _), h => simp [includesStatus] at h

/-- The first order with the id splits the store: the orders before it have another id. -/
theorem split_at_first (id : String) :
    ∀ orders : List Order, (∃ o ∈ orders, o.id = id) →
      ∃ (before : List Order) (found : Order) (after : List Order),
        orders = before ++ found :: after ∧ (∀ x ∈ before, x.id ≠ id) ∧ found.id = id
  | [], h => by simp at h
  | o :: rest, h => by
    by_cases ho : o.id = id
    · exact ⟨[], o, rest, rfl, by simp, ho⟩
    · have hrest : ∃ x ∈ rest, x.id = id := by
        obtain ⟨x, hx, hxid⟩ := h
        rcases List.mem_cons.mp hx with rfl | hx
        · exact absurd hxid ho
        · exact ⟨x, hx, hxid⟩
      obtain ⟨before, found, after, heq, hb, hf⟩ := split_at_first id rest hrest
      refine ⟨o :: before, found, after, by simp [heq], ?_, hf⟩
      intro x hx
      rcases List.mem_cons.mp hx with rfl | hx
      · exact ho
      · exact hb x hx

theorem find?_at_first (id : String) (before after : List Order) (found : Order)
    (hb : ∀ x ∈ before, x.id ≠ id) (hf : found.id = id) :
    (before ++ found :: after).find? (fun o => o.id == id) = some found := by
  induction before with
  | nil => simp [List.find?_cons, hf]
  | cons x rest ih =>
    have hx : x.id ≠ id := hb x (List.mem_cons_self _ _)
    have hx' : (x.id == id) = false := by simpa using hx
    simp only [List.cons_append, List.find?_cons, hx']
    exact ih (fun y hy => hb y (List.mem_cons_of_mem _ hy))

theorem findIdx?_at_first (id : String) (before after : List Order) (found : Order)
    (hb : ∀ x ∈ before, x.id ≠ id) (hf : found.id = id) :
    (before ++ found :: after).findIdx? (fun o => o.id == id) = some before.length := by
  induction before with
  | nil => simp [List.findIdx?_cons, hf]
  | cons x rest ih =>
    have hx : x.id ≠ id := hb x (List.mem_cons_self _ _)
    have ih' := ih (fun y hy => hb y (List.mem_cons_of_mem _ hy))
    simp [List.findIdx?_cons, hx, List.findIdx?_succ, ih']

theorem eraseIdx_at_first (before after : List Order) (found : Order) :
    (before ++ found :: after).eraseIdx before.length = before ++ after := by
  induction before with
  | nil => rfl
  | cons x rest ih => simp [List.eraseIdx_cons_succ, ih]

theorem modifyFirst_at_first (id : String) (change : Order → Order) (before after : List Order)
    (found : Order) (hb : ∀ x ∈ before, x.id ≠ id) (hf : found.id = id) :
    modifyFirst id change (before ++ found :: after) = before ++ change found :: after := by
  induction before with
  | nil => simp [modifyFirst, hf]
  | cons x rest ih =>
    have hx : x.id ≠ id := hb x (List.mem_cons_self _ _)
    simp [modifyFirst, hx, ih (fun y hy => hb y (List.mem_cons_of_mem _ hy))]

theorem modifyFirst_of_absent (id : String) (change : Order → Order) (orders : List Order)
    (h : ∀ o ∈ orders, o.id ≠ id) : modifyFirst id change orders = orders := by
  induction orders with
  | nil => rfl
  | cons x rest ih =>
    have hx : x.id ≠ id := h x (List.mem_cons_self _ _)
    simp [modifyFirst, hx, ih (fun y hy => h y (List.mem_cons_of_mem _ hy))]

/-- Every handler keeps the statuses of the store among the valid ones. -/
theorem run_keeps_statuses (world : World) (endpoint : Endpoint) (id : String) (body : Parsed)
    (orders : List Order) (h : ∀ o ∈ orders, o.status ∈ validStatuses) :
    ∀ o ∈ (run world endpoint id body orders).2, o.status ∈ validStatuses := by
  cases endpoint with
  | root => exact h
  | health => exact h
  | ready => exact h
  | listOrders => exact h
  | getOrder =>
    simp only [run, getOrder]
    split <;> exact h
  | createOrder =>
    simp only [run, createOrder]
    intro o ho
    rcases List.mem_append.mp ho with ho | ho
    · exact h o ho
    · simp only [List.mem_singleton] at ho
      subst ho
      simp [validStatuses]
  | updateStatus =>
    simp only [run, updateStatus]
    split
    · exact h
    · rename_i order hfind
      split
      · exact h
      · rename_i status hstatus
        have hvalid := (includesStatus_valid _ _ hstatus).1
        have hmem : ∃ o ∈ orders, o.id = id := by
          have := List.find?_some hfind
          exact ⟨order, List.mem_of_find?_eq_some hfind, by simpa using this⟩
        obtain ⟨before, found, after, heq, hb, hf⟩ := split_at_first id orders hmem
        subst heq
        simp only [modifyFirst_at_first id _ before after found hb hf]
        intro o ho
        rcases List.mem_append.mp ho with ho | ho
        · exact h o (List.mem_append_left _ ho)
        · rcases List.mem_cons.mp ho with ho | ho
          · subst ho; exact hvalid
          · exact h o (List.mem_append_right _ (List.mem_cons_of_mem _ ho))
  | deleteOrder =>
    simp only [run, deleteOrder]
    split
    · exact h
    · intro o ho
      exact h o (List.eraseIdx_subset _ _ ho)

theorem service_keeps_statuses (world : World) (orders : List Order) (inb : Inbound)
    (h : ∀ o ∈ orders, o.status ∈ validStatuses) :
    ∀ o ∈ (service world orders inb).2, o.status ∈ validStatuses := by
  simp only [service]
  split
  · exact h
  · split
    · exact h
    · split
      · exact h
      · exact h
      · exact run_keeps_statuses world _ _ _ orders h

theorem replay_keeps_statuses :
    ∀ (trace : List (World × Inbound)) (orders : List Order),
      (∀ o ∈ orders, o.status ∈ validStatuses) →
      ∀ o ∈ replay orders trace, o.status ∈ validStatuses
  | [], _, h => h
  | (world, inb) :: rest, orders, h =>
    replay_keeps_statuses rest _ (service_keeps_statuses world orders inb h)

/-- Every order a request leaves in the store has the id of an order that was there before,
or the id `uuidv4()` returned during the request. -/
theorem service_ids (world : World) (orders : List Order) (inb : Inbound) :
    ∀ o ∈ (service world orders inb).2, (∃ x ∈ orders, x.id = o.id) ∨ o.id = world.uuid := by
  have hkeep : ∀ o ∈ orders, (∃ x ∈ orders, x.id = o.id) ∨ o.id = world.uuid :=
    fun o ho => Or.inl ⟨o, ho, rfl⟩
  simp only [service]
  split
  · exact hkeep
  · split
    · exact hkeep
    · split
      · exact hkeep
      · exact hkeep
      · rename_i endpoint id hres
        cases endpoint with
        | root => exact hkeep
        | health => exact hkeep
        | ready => exact hkeep
        | listOrders => exact hkeep
        | getOrder =>
          simp only [run, getOrder]
          split <;> exact hkeep
        | createOrder =>
          simp only [run, createOrder]
          intro o ho
          rcases List.mem_append.mp ho with ho | ho
          · exact hkeep o ho
          · simp only [List.mem_singleton] at ho
            subst ho
            exact Or.inr rfl
        | updateStatus =>
          simp only [run, updateStatus]
          split
          · exact hkeep
          · rename_i order hfind
            split
            · exact hkeep
            · rename_i status hstatus
              have hmem : ∃ o ∈ orders, o.id = id :=
                ⟨order, List.mem_of_find?_eq_some hfind, by simpa using List.find?_some hfind⟩
              obtain ⟨before, found, after, heq, hb, hf⟩ := split_at_first id orders hmem
              subst heq
              simp only [modifyFirst_at_first id _ before after found hb hf]
              intro o ho
              rcases List.mem_append.mp ho with ho | ho
              · exact Or.inl ⟨o, List.mem_append_left _ ho, rfl⟩
              · rcases List.mem_cons.mp ho with ho | ho
                · subst ho
                  exact Or.inl ⟨found, by simp, rfl⟩
                · exact Or.inl ⟨o, List.mem_append_right _ (List.mem_cons_of_mem _ ho), rfl⟩
        | deleteOrder =>
          simp only [run, deleteOrder]
          split
          · exact hkeep
          · intro o ho
            exact Or.inl ⟨o, List.eraseIdx_subset _ _ ho, rfl⟩

/-- In every store the service reaches from the empty store, each id is one that `uuidv4()`
returned during an earlier request. -/
theorem stored_ids_are_generated :
    ∀ (trace : List (World × Inbound)) (orders : List Order),
      ∀ o ∈ replay orders trace,
        (∃ x ∈ orders, x.id = o.id) ∨ ∃ step ∈ trace, o.id = step.1.uuid
  | [], _, o, ho => Or.inl ⟨o, ho, rfl⟩
  | (world, inb) :: rest, orders, o, ho => by
    rcases stored_ids_are_generated rest _ o ho with ⟨x, hx, hxo⟩ | ⟨step, hstep, hid⟩
    · rcases service_ids world orders inb x hx with ⟨y, hy, hyx⟩ | hgen
      · exact Or.inl ⟨y, hy, hyx.trans hxo⟩
      · exact Or.inr ⟨(world, inb), List.mem_cons_self _ _, hxo.symm.trans hgen⟩
    · exact Or.inr ⟨step, List.mem_cons_of_mem _ hstep, hid⟩

/-- C23: in every state the order service reaches from the empty store, by any sequence of
requests (among them `POST /orders`, `PATCH /orders/:id/status` and `DELETE /orders/:id`), the
status of every stored order is one of `pending`, `processing`, `shipped`, `delivered`,
`cancelled`. -/
theorem stored_status_is_valid (trace : List (World × Inbound)) :
    ∀ o ∈ replay [] trace,
      o.status ∈ ["pending", "processing", "shipped", "delivered", "cancelled"] :=
  replay_keeps_statuses trace [] (by simp)

theorem stored_status_is_valid_witness :
    ({ id := World.sample.uuid
       userId := none
       products := .arr []
       totalAmount := .num 0
       status := "shipped"
       createdAt := World.sample.isoNow
       updatedAt := World.sample.isoNow } : Order).status ∈
      ["pending", "processing", "shipped", "delivered", "cancelled"] :=
  stored_status_is_valid
    [(World.sample, ⟨"POST", "/orders", [], .absent⟩),
      (World.sample,
        ⟨"PATCH", "/orders/3f2b8c1e-0a4d-4e6f-9b7a-5c1d2e3f4a5b/status", [],
          .json (.ok (.object [("status", .str "shipped")]))⟩)]
    _ (List.Mem.head [])

theorem get_orders_resolves (world : World) :
    resolve world "GET" "/orders" routes = some (.listOrders, .ok "") :=
  rfl

/-- C24: `PATCH /orders/:id/status` checks existence first and changes nothing when it
rejects: when no order has the id it answers 404 with `Order not found` whatever the status
asked for; when an order has the id and the status asked for is not one of the five valid ones
it answers 400 with `Invalid status`; in both cases the store is left as it is. When it
succeeds it answers 200 with the first order that has the id, in which only `status` and
`updatedAt` are new, and the store differs from the old one in that order alone. -/
theorem patch_status_is_atomic (world : World) (orders : List Order) (inb : Inbound)
    (b : Parsed) (id : String) (hm : inb.method = "PATCH") (hb : readJson inb.payload = .ok b)
    (hr : resolve world "PATCH" inb.url routes = some (.updateStatus, .ok id)) :
    ((∀ o ∈ orders, o.id ≠ id) →
      service world orders inb =
        (⟨404, .json (.obj [("error", .str "Order not found")])⟩, orders)) ∧
    ((∃ o ∈ orders, o.id = id) →
      (∀ s ∈ ["pending", "processing", "shipped", "delivered", "cancelled"],
        b.get "status" ≠ some (.str s)) →
      service world orders inb =
        (⟨400, .json (.obj [("error", .str "Invalid status")])⟩, orders)) ∧
    (∀ s ∈ ["pending", "processing", "shipped", "delivered", "cancelled"],
      b.get "status" = some (.str s) → (∃ o ∈ orders, o.id = id) →
      ∃ (before : List Order) (found : Order) (after : List Order),
        orders = before ++ found :: after ∧ (∀ x ∈ before, x.id ≠ id) ∧ found.id = id ∧
        service world orders inb =
          (⟨200, .order { found with status := s, updatedAt := world.isoNow }⟩,
            before ++ { found with status := s, updatedAt := world.isoNow } :: after)) := by
  have hm' : inb.method ≠ "OPTIONS" := by rw [hm]; decide
  have hr' : resolve world inb.method inb.url routes = some (.updateStatus, .ok id) := by
    rw [hm]; exact hr
  have hs := service_of_resolve world orders inb b _ _ hm' hb hr'
  refine ⟨fun habsent => ?_, fun hex hbad => ?_, fun s hs' hstatus hex => ?_⟩
  · rw [hs]
    simp [run, updateStatus, find?_of_absent id orders habsent, orderNotFound]
  · obtain ⟨before, found, after, heq, hbefore, hfound⟩ := split_at_first id orders hex
    have hnone : includesStatus (b.get "status") = none := by
      cases hi : includesStatus (b.get "status") with
      | none => rfl
      | some s =>
        have := includesStatus_valid _ _ hi
        exact absurd this.2 (hbad s this.1)
    rw [hs]
    simp only [run, updateStatus]
    rw [heq, find?_at_first id before after found hbefore hfound]
    simp only [hnone]
  · obtain ⟨before, found, after, heq, hbefore, hfound⟩ := split_at_first id orders hex
    have hsome : includesStatus (b.get "status") = some s := by
      have hv : s ∈ validStatuses := hs'
      simp [hstatus, includesStatus, hv]
    refine ⟨before, found, after, heq, hbefore, hfound, ?_⟩
    rw [hs]
    simp only [run, updateStatus]
    rw [heq, find?_at_first id before after found hbefore hfound]
    simp only [hsome, modifyFirst_at_first id _ before after found hbefore hfound]

theorem patch_status_is_atomic_witness :
    service World.sample [Order.earlier]
        ⟨"PATCH", "/orders/3f2b8c1e-0a4d-4e6f-9b7a-5c1d2e3f4a5b/status", [],
          .json (.ok (.object [("status", .str "completed")]))⟩ =
      (⟨400, .json (.obj [("error", .str "Invalid status")])⟩, [Order.earlier]) :=
  (patch_status_is_atomic World.sample [Order.earlier]
    ⟨"PATCH", "/orders/3f2b8c1e-0a4d-4e6f-9b7a-5c1d2e3f4a5b/status", [],
      .json (.ok (.object [("status", .str "completed")]))⟩
    (.object [("status", .str "completed")]) "3f2b8c1e-0a4d-4e6f-9b7a-5c1d2e3f4a5b"
    rfl rfl rfl).2.1 ⟨Order.earlier, by simp, rfl⟩ (by simp [Parsed.get, lookup])

/-- C25: a `DELETE /orders/:id` for an id that is present removes exactly one order, the
first that has the id: the store after it is the old one without that order, the other orders
unchanged and in their order, one shorter, and that is what `GET /orders` then returns. -/
theorem delete_removes_first_match (world later : World) (orders : List Order)
    (del list : Inbound) (bd bl : Parsed) (id : String)
    (hdm : del.method = "DELETE") (hdb : readJson del.payload = .ok bd)
    (hdr : resolve world "DELETE" del.url routes = some (.deleteOrder, .ok id))
    (hlm : list.method = "GET") (hlu : list.url = "/orders")
    (hlb : readJson list.payload = .ok bl)
    (hex : ∃ o ∈ orders, o.id = id) :
    ∃ (before : List Order) (found : Order) (after : List Order),
      orders = before ++ found :: after ∧ (∀ x ∈ before, x.id ≠ id) ∧ found.id = id ∧
      service world orders del =
        (⟨200, .json (.obj [("message", .str "Order deleted successfully")])⟩,
          before ++ after) ∧
      service later (before ++ after) list =
        (⟨200, .orders (before ++ after)⟩, before ++ after) ∧
      (before ++ after).length + 1 = orders.length := by
  have hdm' : del.method ≠ "OPTIONS" := by rw [hdm]; decide
  have hlm' : list.method ≠ "OPTIONS" := by rw [hlm]; decide
  have hdr' : resolve world del.method del.url routes = some (.deleteOrder, .ok id) := by
    rw [hdm]; exact hdr
  have hlr : resolve later list.method list.url routes = some (.listOrders, .ok "") := by
    rw [hlm, hlu]; exact get_orders_resolves later
  obtain ⟨before, found, after, heq, hbefore, hfound⟩ := split_at_first id orders hex
  refine ⟨before, found, after, heq, hbefore, hfound, ?_, ?_, ?_⟩
  · rw [service_of_resolve world _ del bd _ _ hdm' hdb hdr']
    simp only [run, deleteOrder]
    rw [heq, findIdx?_at_first id before after found hbefore hfound]
    simp only [eraseIdx_at_first]
  · rw [service_of_resolve later _ list bl _ _ hlm' hlb hlr]
    rfl
  · simp [heq]; omega

theorem delete_removes_first_match_witness :
    ∃ (before : List Order) (found : Order) (after : List Order),
      [Order.earlier, { Order.earlier with status := "pending" }] = before ++ found :: after ∧
      (∀ x ∈ before, x.id ≠ "3f2b8c1e-0a4d-4e6f-9b7a-5c1d2e3f4a5b") ∧
      found.id = "3f2b8c1e-0a4d-4e6f-9b7a-5c1d2e3f4a5b" ∧
      service World.sample [Order.earlier, { Order.earlier with status := "pending" }]
          ⟨"DELETE", "/orders/3f2b8c1e-0a4d-4e6f-9b7a-5c1d2e3f4a5b", [], .absent⟩ =
        (⟨200, .json (.obj [("message", .str "Order deleted successfully")])⟩,
          before ++ after) ∧
      service World.sample (before ++ after) ⟨"GET", "/orders", [], .absent⟩ =
        (⟨200, .orders (before ++ after)⟩, before ++ after) ∧
      (before ++ after).length + 1 =
        [Order.earlier, { Order.earlier with status := "pending" }].length :=
  delete_removes_first_match World.sample World.sample
    [Order.earlier, { Order.earlier with status := "pending" }]
    ⟨"DELETE", "/orders/3f2b8c1e-0a4d-4e6f-9b7a-5c1d2e3f4a5b", [], .absent⟩
    ⟨"GET", "/orders", [], .absent⟩ (.object []) (.object [])
    "3f2b8c1e-0a4d-4e6f-9b7a-5c1d2e3f4a5b" rfl rfl rfl rfl rfl rfl
    ⟨Order.earlier, by simp, rfl⟩

end OrderService
